import Mathlib

/-!
# Booking and review workflow of the hotel site

A shallow embedding of `google_apps_script.js` (the spreadsheet-backed
endpoints) and of the calendar decision rule of `script.js`.

* A request field is a `JSVal`: what `JSON.parse` yields for a key of the
  posted body, `undefined` standing for an absent key.  Arrays and objects as
  field values are not modelled.
* A sheet cell is a `Cell`: what `getValues()` yields, i.e. a string, a number,
  a boolean or a `Date`; an empty cell reads as the empty string.
* Numbers are integers (`Int`); fractional numbers and `NaN` are not modelled.
* A sheet is the list of its rows as `getDataRange().getValues()` returns them,
  header row first; `appendRow` adds one row at the end.  A value written to a
  cell is read back as written (`Cell.ofJSVal`); the re-typing a spreadsheet
  may apply to text on entry is not modelled.
* Library functions of the JavaScript / Apps Script runtime whose result the
  repository does not determine are fields of `Runtime`.
-/

namespace DiamondPalace

/-! ## Values -/

/-- Value of a field of a parsed JSON body (`undefined` = key absent). -/
inductive JSVal where
  | undefined
  | null
  | bool (b : Bool)
  | num (n : Int)
  | str (s : String)
  deriving DecidableEq, Repr

/-- Value of a spreadsheet cell as read by `getValues()`. -/
inductive Cell where
  | str (s : String)
  | num (n : Int)
  | bool (b : Bool)
  | date (ms : Int)
  deriving DecidableEq, Repr

/-- Runtime library functions used by the script.
`toNumber s` is JavaScript `ToNumber` on a string, `none` when the result is
`NaN` or not an integer; `dateToString ms` is `String(d)` for the `Date` with
time value `ms`; `formatDate ms` is
`Utilities.formatDate(d, TIMEZONE, "yyyy-MM-dd")` with `TIMEZONE = "GMT+5:30"`;
`isoDay v` is `new Date(v).toISOString().split('T')[0]`, `none` when
`toISOString` throws (invalid date). -/
structure Runtime where
  toNumber : String → Option Int
  dateToString : Int → String
  formatDate : Int → String
  isoDay : JSVal → Option String

/-- JavaScript truthiness of a request value. -/
def JSVal.truthy : JSVal → Bool
  | .undefined => false
  | .null => false
  | .bool b => b
  | .num n => n != 0
  | .str s => s != ""

/-- JavaScript truthiness of a cell value (a `Date` object is truthy). -/
def Cell.truthy : Cell → Bool
  | .str s => s != ""
  | .num n => n != 0
  | .bool b => b
  | .date _ => true

/-- What a cell holds after `appendRow` / `setValue` wrote the value: `null`
and `undefined` leave the cell empty, and an empty cell reads as `""`. -/
def Cell.ofJSVal : JSVal → Cell
  | .undefined => .str ""
  | .null => .str ""
  | .bool b => .bool b
  | .num n => .num n
  | .str s => .str s

/-- `ToNumber` of a boolean. -/
def boolNum (b : Bool) : Int := if b then 1 else 0

/-- `String(v)` for a request value (integers print in decimal). -/
def JSVal.toStr : JSVal → String
  | .undefined => "undefined"
  | .null => "null"
  | .bool b => if b then "true" else "false"
  | .num n => toString n
  | .str s => s

/-- `String(c)` for a cell value. -/
def Cell.toStr (rt : Runtime) : Cell → String
  | .str s => s
  | .num n => toString n
  | .bool b => if b then "true" else "false"
  | .date ms => rt.dateToString ms

/-- White space and line terminators removed by `String.prototype.trim`. -/
def isJSSpace (c : Char) : Bool :=
  let n := c.toNat
  n == 9 || n == 10 || n == 11 || n == 12 || n == 13 || n == 32 || n == 160 ||
  n == 5760 || (8192 ≤ n && n ≤ 8202) || n == 8232 || n == 8233 || n == 8239 ||
  n == 8287 || n == 12288 || n == 65279

/-- `s.trim()`. -/
def jsTrim (s : String) : String :=
  ⟨((s.data.dropWhile isJSSpace).reverse.dropWhile isJSSpace).reverse⟩

/-- Loose equality `x == y` of a primitive cell value `x` and a request value
`y` (both sides of different type are compared as numbers; `null` and
`undefined` equal only each other, and a cell is never one of them). -/
def looseEqPrim (rt : Runtime) : Cell → JSVal → Bool
  | _, .undefined => false
  | _, .null => false
  | .str s, .str t => s == t
  | .str s, .num n => rt.toNumber s == some n
  | .str s, .bool b => rt.toNumber s == some (boolNum b)
  | .num n, .num m => n == m
  | .num n, .str t => rt.toNumber t == some n
  | .num n, .bool b => n == boolNum b
  | .bool a, .bool b => a == b
  | .bool a, .num m => boolNum a == m
  | .bool a, .str t => rt.toNumber t == some (boolNum a)
  | .date _, _ => false

/-- Loose equality `x == y` of a cell value and a request value; a `Date` is
first converted to its string form (`ToPrimitive`). -/
def looseEq (rt : Runtime) (x : Cell) (y : JSVal) : Bool :=
  match x with
  | .date ms => looseEqPrim rt (.str (rt.dateToString ms)) y
  | x => looseEqPrim rt x y

/-! ## Sheets -/

/-- Row of the `Bookings` sheet, columns A to H (indices 0 to 7). -/
structure BookingRow where
  name : Cell
  mobile : Cell
  location : Cell
  date : Cell
  timestamp : Cell
  status : Cell
  payment : Cell
  notes : Cell
  deriving DecidableEq, Repr

/-- Row of the `Reviews` sheet, columns A to D (indices 0 to 3). -/
structure ReviewRow where
  name : Cell
  review : Cell
  date : Cell
  rating : Cell
  deriving DecidableEq, Repr

/-- Header row written by `getSheet` when it creates the `Bookings` sheet. -/
def bookingsHeader : BookingRow :=
  ⟨.str "Full Name", .str "Mobile", .str "Location", .str "Booked Date",
   .str "Timestamp", .str "Status", .str "Payment", .str "Notepad"⟩

/-- Header row written by `getSheet` when it creates the `Reviews` sheet. -/
def reviewsHeader : ReviewRow :=
  ⟨.str "Name", .str "Review", .str "Date", .str "Rating"⟩

/-- `getSheet(name)`: the rows of the sheet, which is created with its header
row when it does not exist yet. -/
def getSheet {α : Type} (header : α) : Option (List α) → List α
  | none => [header]
  | some rows => rows

/-- Parsed body of a POST request: the keys the handlers read, and the
name-like keys a caller may add. -/
structure Request where
  action : JSVal := .undefined
  full_name : JSVal := .undefined
  name : JSVal := .undefined
  mo_number : JSVal := .undefined
  location : JSVal := .undefined
  booked_date : JSVal := .undefined
  status : JSVal := .undefined
  payment_status : JSVal := .undefined
  admin_notes : JSVal := .undefined
  mobile : JSVal := .undefined
  review : JSVal := .undefined
  rating : JSVal := .undefined
  deriving DecidableEq, Repr

/-- JSON object `{success, message}` returned by the write handlers. -/
structure Reply where
  success : Bool
  message : String
  deriving DecidableEq, Repr

/-! ## Booking service -/

/-- The date of a row as the handlers compare it: a `Date` cell is formatted
as `yyyy-MM-dd` in `TIMEZONE`, any other cell is taken as stored. -/
def dateKey (rt : Runtime) : Cell → Cell
  | .date ms => .str (rt.formatDate ms)
  | c => c

/-- Loop test `existingDate == data.booked_date` for one row. -/
def dateMatches (rt : Runtime) (d : JSVal) (row : BookingRow) : Bool :=
  looseEq rt (dateKey rt row.date) d

/-- Row appended by `createBooking`; `now` is the time value of `new Date()`. -/
def newBookingRow (now : Int) (data : Request) : BookingRow :=
  ⟨Cell.ofJSVal data.full_name, Cell.ofJSVal data.mo_number,
   Cell.ofJSVal data.location, Cell.ofJSVal data.booked_date, .date now,
   .str "Pending", .str "Pending", .str ""⟩

/-- `createBooking(data)` on the `Bookings` sheet `bookings`: the reply and the
sheet afterwards.  The loop runs over the rows of index 1 and up. -/
def createBooking (rt : Runtime) (now : Int) (bookings : List BookingRow)
    (data : Request) : Reply × List BookingRow :=
  if (bookings.drop 1).any (dateMatches rt data.booked_date) then
    (⟨false, "Date already booked"⟩, bookings)
  else
    (⟨true, "Booking Created"⟩, bookings ++ [newBookingRow now data])

/-- The loop `for (i = start; i < rows.length; i++) if (p rows[i]) { found i; break }`
run over the rows from index `i` on: the index of the first row passing the test. -/
def scanFrom (p : BookingRow → Bool) : List BookingRow → Nat → Option Nat
  | [], _ => none
  | row :: rest, i => if p row then some i else scanFrom p rest (i + 1)

/-- Row with the cell of the 1-based column `col` replaced. -/
def BookingRow.setCol (row : BookingRow) (col : Nat) (v : Cell) : BookingRow :=
  match col with
  | 1 => { row with name := v }
  | 2 => { row with mobile := v }
  | 3 => { row with location := v }
  | 4 => { row with date := v }
  | 5 => { row with timestamp := v }
  | 6 => { row with status := v }
  | 7 => { row with payment := v }
  | 8 => { row with notes := v }
  | _ => row

/-- The list with `f` applied to the element of index `i`. -/
def modifyRow (f : BookingRow → BookingRow) : List BookingRow → Nat → List BookingRow
  | [], _ => []
  | row :: rest, 0 => f row :: rest
  | row :: rest, i + 1 => row :: modifyRow f rest i

/-- `sheet.getRange(rowIndex, col).setValue(v)`, rows and columns counted from 1
(`rowIndex` is always a row of the sheet where the handlers call it). -/
def setValue (sheet : List BookingRow) (rowIndex col : Nat) (v : JSVal) : List BookingRow :=
  modifyRow (fun row => row.setCol col (Cell.ofJSVal v)) sheet (rowIndex - 1)

/-- `updateBooking(data)` on the `Bookings` sheet: the reply and the sheet
afterwards. -/
def updateBooking (rt : Runtime) (bookings : List BookingRow) (data : Request) :
    Reply × List BookingRow :=
  match scanFrom (dateMatches rt data.booked_date) (bookings.drop 1) 1 with
  | none => (⟨false, "Booking not found"⟩, bookings)
  | some i =>
    let rowIndex := i + 1
    let s1 := if data.status ≠ .undefined then setValue bookings rowIndex 6 data.status
      else bookings
    let s2 := if data.payment_status ≠ .undefined then setValue s1 rowIndex 7 data.payment_status
      else s1
    let s3 := if data.admin_notes ≠ .undefined then setValue s2 rowIndex 8 data.admin_notes
      else s2
    (⟨true, "Updated"⟩, s3)

/-! ## Review service -/

/-- Test `status` and `payment` of `addReview`: strict equality with the
accepted words. -/
def statusOk (row : BookingRow) : Bool :=
  (row.status == .str "Confirmed" || row.status == .str "Booked") &&
  (row.payment == .str "Done" || row.payment == .str "Paid")

/-- Test `rowMobile === targetMobile` of `addReview`. -/
def mobileMatches (rt : Runtime) (targetMobile : String) (row : BookingRow) : Bool :=
  jsTrim (row.mobile.toStr rt) == targetMobile

/-- Body of the loop of `addReview`: the row sets `isValidUser` and breaks. -/
def validates (rt : Runtime) (targetMobile : String) (row : BookingRow) : Bool :=
  mobileMatches rt targetMobile row && statusOk row

/-- Message of a refused review. -/
def notEligibleMessage : String :=
  "You can only leave a review if you have a Confirmed Booking and Payment is Done."

/-- `a || b` on request values. -/
def jsOr (a b : JSVal) : JSVal := if a.truthy then a else b

/-- `addReview(data)`: the reply and the `Reviews` sheet afterwards (the
`Bookings` sheet is only read). -/
def addReview (rt : Runtime) (now : Int) (bookings : List BookingRow)
    (reviews : List ReviewRow) (data : Request) : Reply × List ReviewRow :=
  let targetMobile := jsTrim data.mobile.toStr
  match (bookings.drop 1).find? (validates rt targetMobile) with
  | none => (⟨false, notEligibleMessage⟩, reviews)
  | some row =>
    (⟨true, "Review Added Successfully!"⟩,
     reviews ++ [⟨row.name, Cell.ofJSVal data.review, .date now,
                  Cell.ofJSVal (jsOr data.rating (.num 5))⟩])

/-- Item of the list `getReviews` returns. -/
structure Review where
  name : Cell
  review : Cell
  date : Cell
  rating : Cell
  deriving DecidableEq, Repr

/-- The `map` callback of `getReviews`. -/
def toReview (row : ReviewRow) : Review :=
  ⟨row.name, row.review, row.date, if row.rating.truthy then row.rating else .num 5⟩

/-- The `filter` callback `r.review && r.review.trim() !== ""`: a falsy cell is
dropped, a string is kept when its trimmed text is non-empty, and any other
truthy cell has no `trim` method, so the call throws a `TypeError`. -/
def keepReview (review : Cell) : Except String Bool :=
  if review.truthy then
    match review with
    | .str s => .ok (jsTrim s != "")
    | _ => .error "TypeError: r.review.trim is not a function"
  else .ok false

/-- `Array.prototype.filter` with the callback of `getReviews`. -/
def filterReviews : List Review → Except String (List Review)
  | [] => .ok []
  | r :: rest =>
    match keepReview r.review with
    | .error e => .error e
    | .ok keep =>
      match filterReviews rest with
      | .error e => .error e
      | .ok kept => .ok (if keep then r :: kept else kept)

/-- `getReviews()` on the `Reviews` sheet: the `reviews` array of the reply, or
the error thrown. -/
def getReviews (reviews : List ReviewRow) : Except String (List Review) :=
  match filterReviews ((reviews.drop 1).map toReview) with
  | .error e => .error e
  | .ok kept => .ok kept.reverse

/-! ## The two sheets and the write handlers as a state machine -/

/-- Content of the spreadsheet. -/
structure Store where
  bookings : List BookingRow
  reviews : List ReviewRow
  deriving DecidableEq, Repr

/-- One completed call of a write handler. -/
inductive Call where
  | book (now : Int) (data : Request)
  | update (data : Request)
  | review (now : Int) (data : Request)
  deriving Repr

/-- Spreadsheet after one call. -/
def Store.step (rt : Runtime) (s : Store) : Call → Store
  | .book now data => { s with bookings := (createBooking rt now s.bookings data).2 }
  | .update data => { s with bookings := (updateBooking rt s.bookings data).2 }
  | .review now data => { s with reviews := (addReview rt now s.bookings s.reviews data).2 }

/-- Spreadsheet after a sequence of calls, each run to completion. -/
def Store.run (rt : Runtime) (s : Store) (calls : List Call) : Store :=
  calls.foldl (Store.step rt) s

/-! ## Calendar presenter (`script.js`) -/

/-- Display state of a calendar day. -/
inductive DayState where
  | booked
  | past
  | available
  deriving DecidableEq, Repr

/-- Local calendar day of a `Date` at local midnight; `month` counts from 0 as
`getMonth()` does. -/
structure LocalDay where
  year : Nat
  month : Nat
  day : Nat
  deriving DecidableEq, Repr

/-- Comparison `a < b` of two `Date`s at local midnight. -/
def LocalDay.before (a b : LocalDay) : Bool :=
  a.year < b.year || (a.year == b.year &&
    (a.month < b.month || (a.month == b.month && a.day < b.day)))

/-- Gregorian leap year. -/
def isLeapYear (y : Nat) : Bool := (y % 4 == 0 && y % 100 != 0) || y % 400 == 0

/-- `new Date(year, month + 1, 0).getDate()`: number of days of the month. -/
def daysInMonth (year month : Nat) : Nat :=
  match month % 12 with
  | 1 => if isLeapYear (year + month / 12) then 29 else 28
  | 3 => 30
  | 5 => 30
  | 8 => 30
  | 10 => 30
  | _ => 31

/-- `String(n).padStart(2, '0')`. -/
def pad2 (n : Nat) : String :=
  let s := toString n
  if s.length < 2 then "0" ++ s else s

/-- The key `year-MM-dd` built for day `i` of the displayed month. -/
def dateStrOf (year month i : Nat) : String :=
  toString year ++ "-" ++ pad2 (month + 1) ++ "-" ++ pad2 i

/-- The object `bookingsMap`: the latest assignment to a key comes first. -/
abbrev BookingsMap := List (String × JSVal)

/-- Property read `bookingsMap[key]`. -/
def BookingsMap.get (m : BookingsMap) (key : String) : JSVal :=
  match m.lookup key with
  | some v => v
  | none => .undefined

/-- The `if / else if / else` of `renderCalendar` for day `i`. -/
def dayState (m : BookingsMap) (today : LocalDay) (year month i : Nat) : DayState :=
  if (m.get (dateStrOf year month i)).truthy then .booked
  else if (LocalDay.mk year month i).before today then .past
  else .available

/-- Day element appended to the grid. -/
structure DayCell where
  day : Nat
  date : String
  state : DayState
  deriving DecidableEq, Repr

/-- The day elements `renderCalendar(date)` appends, for `year = getFullYear()`
and `month = getMonth()` of `date`, in order `i = 1 .. daysInMonth`. -/
def renderCalendar (m : BookingsMap) (today : LocalDay) (year month : Nat) : List DayCell :=
  (List.range (daysInMonth year month)).map fun k =>
    ⟨k + 1, dateStrOf year month (k + 1), dayState m today year month (k + 1)⟩

/-- Booking object of the list the client receives: the keys
`processBookingData` reads. -/
structure BookingJson where
  booked_date : JSVal := .undefined
  date : JSVal := .undefined
  full_name : JSVal := .undefined
  name : JSVal := .undefined
  deriving DecidableEq, Repr

/-- Global client state. -/
structure ClientState where
  bookingsMap : BookingsMap
  bookedDates : List String
  deriving DecidableEq, Repr

/-- The `forEach` of `processBookingData` from state `st` on; the flag is
`false` when `toISOString` threw, which leaves the state as it was then. -/
def processLoop (rt : Runtime) : List BookingJson → ClientState → ClientState × Bool
  | [], st => (st, true)
  | b :: rest, st =>
    let dateKey := jsOr b.booked_date b.date
    let name := jsOr (jsOr b.full_name b.name) (.str "Unknown")
    if dateKey.truthy then
      match rt.isoDay dateKey with
      | none => (st, false)
      | some d => processLoop rt rest ⟨(d, name) :: st.bookingsMap, st.bookedDates ++ [d]⟩
    else processLoop rt rest st

/-- `processBookingData(bookings)` run in client state `prev`. -/
def processBookingData (rt : Runtime) (_prev : ClientState) (bookings : List BookingJson) :
    ClientState × Bool :=
  processLoop rt bookings ⟨[], []⟩

/-- `submitBooking` after a reply with `success` true: the optimistic update
`bookedDates.push(data.booked_date); if (data.booked_date)
bookingsMap[data.booked_date] = data.full_name || "You"`, both values being
the text of the form fields. -/
def optimisticUpdate (st : ClientState) (booked_date full_name : String) : ClientState :=
  { bookingsMap :=
      if (JSVal.str booked_date).truthy then
        (booked_date, jsOr (.str full_name) (.str "You")) :: st.bookingsMap
      else st.bookingsMap,
    bookedDates := st.bookedDates ++ [booked_date] }

/-- `submitBooking` once `fetch` has settled. -/
inductive FetchResult where
  /-- The `fetch` call rejected (network error). -/
  | failed
  /-- The call completed and `response.json()` rejected, or the parsed value
  has no properties to read (`null`). -/
  | unreadable
  /-- The body parsed; `success` and `message` are the keys of `result`. -/
  | json (success message : JSVal)
  deriving DecidableEq, Repr

/-- What `submitBooking` shows to the user. -/
inductive Notice where
  | toast (text : String)
  | alert (text : String)
  deriving DecidableEq, Repr

/-- Text of the alert in the `catch` branch of `submitBooking`. -/
def requestSentText : String :=
  "Booking request sent! Note: If you don't see the date red immediately, please refresh."

/-- `submitBooking()` from the `try` on, for the form values `booked_date` and
`full_name`: the client state afterwards and the notice shown. -/
def submitBooking (st : ClientState) (booked_date full_name : String) :
    FetchResult → ClientState × Notice
  | .json success message =>
    if success.truthy then
      (optimisticUpdate st booked_date full_name, .toast "Booking Successful!")
    else
      (st, .alert ("Booking failed: " ++ (jsOr message (.str "Unknown error")).toStr))
  | .unreadable => (st, .alert requestSentText)
  | .failed => (st, .alert requestSentText)

/-! ## Read handlers and the two endpoints -/

/-- `a || b` on cell values. -/
def cellOr (a b : Cell) : Cell := if a.truthy then a else b

/-- Item of the list `getBookings` returns. -/
structure Booking where
  full_name : Cell
  mo_number : Cell
  location : Cell
  booked_date : Cell
  timestamp : Cell
  status : Cell
  payment_status : Cell
  admin_notes : Cell
  deriving DecidableEq, Repr

/-- The `map` callback of `getBookings`. -/
def toBooking (rt : Runtime) (row : BookingRow) : Booking :=
  { full_name := row.name,
    mo_number := row.mobile,
    location := row.location,
    booked_date := dateKey rt row.date,
    timestamp := row.timestamp,
    status := cellOr row.status (.str "Pending"),
    payment_status := cellOr row.payment (.str "Pending"),
    admin_notes := cellOr row.notes (.str "") }

/-- `getBookings()` on the `Bookings` sheet: the `bookings` array of the reply. -/
def getBookings (rt : Runtime) (bookings : List BookingRow) : List Booking :=
  (bookings.drop 1).map (toBooking rt)

/-- The spreadsheet: each of the two sheets exists or not. -/
structure Spreadsheet where
  bookings : Option (List BookingRow)
  reviews : Option (List ReviewRow)
  deriving DecidableEq, Repr

/-- Rows of the `Bookings` sheet as `getSheet(BOOKINGS_SHEET)` gives them. -/
def Spreadsheet.bookingsTable (ss : Spreadsheet) : List BookingRow :=
  getSheet bookingsHeader ss.bookings

/-- Rows of the `Reviews` sheet as `getSheet(REVIEWS_SHEET)` gives them. -/
def Spreadsheet.reviewsTable (ss : Spreadsheet) : List ReviewRow :=
  getSheet reviewsHeader ss.reviews

/-- JSON value a handler returns through `ContentService`. -/
inductive Output where
  /-- The object `{success, message}`. -/
  | reply (r : Reply)
  /-- The object `{success: true, bookings}`. -/
  | bookings (items : List Booking)
  /-- The object `{success: true, reviews}`. -/
  | reviews (items : List Review)
  deriving DecidableEq, Repr

/-- The `success` key of an output. -/
def Output.success : Output → Bool
  | .reply r => r.success
  | .bookings _ => true
  | .reviews _ => true

/-- The `message` key of an output, when it has one. -/
def Output.message : Output → Option String
  | .reply r => some r.message
  | .bookings _ => none
  | .reviews _ => none

/-- `doGet(e)` for `action = e.parameter.action`: the output, or the error
thrown out of the handler, and the spreadsheet afterwards. -/
def doGet (rt : Runtime) (action : JSVal) (ss : Spreadsheet) :
    Except String Output × Spreadsheet :=
  if action = .str "get_bookings" then
    (.ok (.bookings (getBookings rt ss.bookingsTable)),
      { ss with bookings := some ss.bookingsTable })
  else if action = .str "get_reviews" then
    (match getReviews ss.reviewsTable with
      | .ok items => .ok (.reviews items)
      | .error e => .error e,
      { ss with reviews := some ss.reviewsTable })
  else
    (.ok (.reply ⟨false, "Invalid action"⟩), ss)

/-- What `JSON.parse(e.postData.contents)` and the read of `data.action` give. -/
inductive PostBody where
  /-- An error is thrown (body that is not JSON, or the JSON value `null`);
  `error` is `error.toString()`. -/
  | malformed (error : String)
  /-- The keys of the parsed value (all `undefined` for a value without them). -/
  | parsed (data : Request)
  deriving DecidableEq, Repr

/-- `doPost(e)`: the output and the spreadsheet afterwards; `now` is the time
value of `new Date()` in the handler called. -/
def doPost (rt : Runtime) (now : Int) (body : PostBody) (ss : Spreadsheet) :
    Output × Spreadsheet :=
  match body with
  | .malformed error => (.reply ⟨false, error⟩, ss)
  | .parsed data =>
    if data.action = .str "book" then
      let res := createBooking rt now ss.bookingsTable data
      (.reply res.1, { ss with bookings := some res.2 })
    else if data.action = .str "update_booking" then
      let res := updateBooking rt ss.bookingsTable data
      (.reply res.1, { ss with bookings := some res.2 })
    else if data.action = .str "add_review" then
      let res := addReview rt now ss.bookingsTable ss.reviewsTable data
      if res.1.success then
        (.reply res.1, { bookings := some ss.bookingsTable, reviews := some res.2 })
      else
        (.reply res.1, { ss with bookings := some ss.bookingsTable })
    else
      (.reply ⟨false, "Invalid action"⟩, ss)

/-! ## Review verification on the client (`setupReviewModal`, step 1) -/

/-- JSON value of a cell in the reply of `getBookings`, as the client parses
it; `dateToJSON ms` is `d.toJSON()` for the `Date` with time value `ms`. -/
def Cell.toJson (dateToJSON : Int → String) : Cell → JSVal
  | .str s => .str s
  | .num n => .num n
  | .bool b => .bool b
  | .date ms => .str (dateToJSON ms)

/-- The quote character U+0027. -/
def quoteChar : Char := Char.ofNat 39

/-- The string without its quote characters: `s.replace(/'/g, '')`. -/
def removeQuotes (s : String) : String :=
  ⟨s.data.filter fun c => c != quoteChar⟩

/-- The booking's mobile as step 1 compares it:
`(b.mo_number || '').toString().replace(/'/g, '').trim()`. -/
def clientMobile (mo_number : JSVal) : String :=
  jsTrim (removeQuotes (jsOr mo_number (.str "")).toStr)

/-- The callback of `data.bookings.find` in step 1, for the trimmed input
`mobileInput`. -/
def clientQualifies (dateToJSON : Int → String) (mobileInput : String) (b : Booking) : Bool :=
  clientMobile (b.mo_number.toJson dateToJSON) == mobileInput &&
  ((b.status.toJson dateToJSON == .str "Confirmed" ||
      b.status.toJson dateToJSON == .str "Booked") &&
    (b.payment_status.toJson dateToJSON == .str "Paid" ||
      b.payment_status.toJson dateToJSON == .str "Done"))

/-- Step 1 of the review dialog on the parsed reply of `get_bookings`, for the
text `value` of the mobile field: the booking found (`foundUser`), if any. -/
def clientVerify (dateToJSON : Int → String) (value : String) (bookings : List Booking) :
    Option Booking :=
  bookings.find? (clientQualifies dateToJSON (jsTrim value))

/-- The name step 1 puts in `reviewerNameDisplay`: `foundUser.full_name`. -/
def clientDisplayedName (dateToJSON : Int → String) (value : String)
    (bookings : List Booking) : Option JSVal :=
  (clientVerify dateToJSON value bookings).map fun b => b.full_name.toJson dateToJSON

/-! ## A runtime for examples -/

/-- Civil date `(year, month, day)` of the day number `z` (days since
1970-01-01) in the Gregorian calendar. -/
def civilFromDays (z : Int) : Int × Int × Int :=
  let z := z + 719468
  let era := z / 146097
  let doe := z - era * 146097
  let yoe := (doe - doe / 1460 + doe / 36524 - doe / 146096) / 365
  let doy := doe - (365 * yoe + yoe / 4 - yoe / 100)
  let mp := (5 * doy + 2) / 153
  let d := doy - (153 * mp + 2) / 5 + 1
  let m := if mp < 10 then mp + 3 else mp - 9
  (if m ≤ 2 then yoe + era * 400 + 1 else yoe + era * 400, m, d)

/-- Decimal digits of `n`, padded with zeros on the left to `width`. -/
def padLeft (width n : Nat) : String :=
  let s := toString n
  String.mk (List.replicate (width - s.length) '0') ++ s

/-- Offset of `GMT+5:30` in milliseconds. -/
def istOffset : Int := 19800000

/-- The day `yyyy-MM-dd` of the time value `ms` in GMT+5:30 (Gregorian
calendar, years 1 and later). -/
def formatIST (ms : Int) : String :=
  let (y, m, d) := civilFromDays ((ms + istOffset) / 86400000)
  padLeft 4 y.toNat ++ "-" ++ padLeft 2 m.toNat ++ "-" ++ padLeft 2 d.toNat

/-- Value of a string of decimal digits, `none` when another character occurs. -/
def parseDigits : List Char → Option Nat
  | [] => none
  | cs => cs.foldl (fun acc c =>
      match acc with
      | some n => if c.isDigit then some (10 * n + (c.toNat - 48)) else none
      | none => none) (some 0)

/-- An instance of `Runtime` to evaluate the handlers on examples.  It follows
the JavaScript runtime on these inputs and is not meant beyond them:
`toNumber` on blank strings and unsigned decimal integers, `formatDate` on
time values of the Gregorian era, `isoDay` on text that is already a day
`yyyy-MM-dd`; `dateToString` prints the day and the time value. -/
def Runtime.sample : Runtime where
  toNumber := fun s =>
    if jsTrim s = "" then some 0 else (parseDigits (jsTrim s).data).map Int.ofNat
  dateToString := fun ms => formatIST ms ++ " (" ++ toString ms ++ ")"
  formatDate := formatIST
  isoDay := fun v =>
    match v with
    | .str s =>
      match s.data with
      | [y1, y2, y3, y4, '-', m1, m2, '-', d1, d2] =>
        if [y1, y2, y3, y4, m1, m2, d1, d2].all Char.isDigit then some s else none
      | _ => none
    | _ => none

/-- The text `d.toJSON()` of the time value `ms` (`YYYY-MM-DDTHH:mm:ss.sssZ`,
years 0 to 9999), used to evaluate the client on examples. -/
def isoString (ms : Int) : String :=
  let (y, m, d) := civilFromDays (ms / 86400000)
  let rest := (ms % 86400000).toNat
  padLeft 4 y.toNat ++ "-" ++ padLeft 2 m.toNat ++ "-" ++ padLeft 2 d.toNat ++ "T" ++
    padLeft 2 (rest / 3600000) ++ ":" ++ padLeft 2 (rest / 60000 % 60) ++ ":" ++
    padLeft 2 (rest / 1000 % 60) ++ "." ++ padLeft 3 (rest % 1000) ++ "Z"

/-! ## Example data -/

/-- Booking request of the scenario: Asha books 15 June 2025. -/
def ashaRequest : Request :=
  { action := .str "book", full_name := .str "Asha", mo_number := .str "9999999999",
    location := .str "Delhi", booked_date := .str "2025-06-15" }

/-- Confirmed-and-paid update of the scenario. -/
def confirmRequest : Request :=
  { action := .str "update_booking", booked_date := .str "2025-06-15",
    status := .str "Confirmed", payment_status := .str "Paid" }

/-- The booking of the scenario after the admin confirmed it. -/
def ashaConfirmedRow : BookingRow :=
  ⟨.str "Asha", .str "9999999999", .str "Delhi", .str "2025-06-15", .date 8,
    .str "Confirmed", .str "Paid", .str ""⟩

/-- Review request of the scenario, with a caller-supplied name added. -/
def ashaReview : Request :=
  { action := .str "add_review", mobile := .str "9999999999", review := .str "Great stay",
    rating := .num 5, name := .str "Mallory", full_name := .str "Mallory" }

/-- Review request whose text is the JSON number 10. -/
def numericReview : Request :=
  { action := .str "add_review", mobile := .str "9999999999", review := .num 10,
    rating := .num 5 }

/-- Booking row whose status cell holds the number 0 and whose note cell
holds `false`. -/
def zeroStatusRow : BookingRow :=
  ⟨.str "Asha", .str "9999999999", .str "Delhi", .str "2025-06-15", .date 8,
    .num 0, .str "Paid", .bool false⟩

/-- Booking request whose date is written day first. -/
def dayFirstRequest : Request :=
  { ashaRequest with booked_date := .str "15/06/2025" }

/-- `Reviews` sheet holding one review whose text cell is the number 10. -/
def numericReviewSheet : List ReviewRow :=
  [reviewsHeader, ⟨.str "Asha", .num 10, .date 9, .num 5⟩]

/-- Two bookings under one mobile number: the earlier one still pending, the
later one confirmed and paid. -/
def pendingThenPaid : List BookingRow :=
  [bookingsHeader,
    ⟨.str "Asha", .str "9999999999", .str "Delhi", .str "2025-06-14", .date 7,
      .str "Pending", .str "Pending", .str ""⟩,
    ashaConfirmedRow]

/-- Confirmed and paid booking whose mobile cell reads as the quote character
followed by the digits, the value `submitBooking` posts. -/
def quotedMobileRow : BookingRow :=
  { ashaConfirmedRow with mobile := .str "'9999999999" }

/-- Two confirmed and paid bookings: the first with the mobile cell reading as
quote and digits, the second, of another guest, with the digits alone. -/
def quotedThenPlain : List BookingRow :=
  [bookingsHeader, quotedMobileRow,
    ⟨.str "Bina", .str "9999999999", .str "Pune", .str "2025-06-20", .date 9,
      .str "Booked", .str "Done", .str ""⟩]

/-- `Bookings` sheet whose one booking has a native date in the date cell:
15 June 2025, 00:00 in GMT+5:30. -/
def juneDateSheet : List BookingRow :=
  [bookingsHeader, { ashaConfirmedRow with date := .date 1749925800000 }]

/-- `Reviews` sheet with one review whose rating cell is empty. -/
def unratedReviewSheet : List ReviewRow :=
  [reviewsHeader, ⟨.str "Asha", .str "Great stay", .date 9, .str ""⟩]

/-! ## Predicates used in the statements -/

/-- Booking row whose mobile cell is text without a quote character and whose
status and payment cells are text. -/
def plainTextRow (row : BookingRow) : Prop :=
  (∃ s, row.mobile = .str s ∧ removeQuotes s = s) ∧ (∃ s, row.status = .str s) ∧
    (∃ s, row.payment = .str s)

/-- Text of the form `YYYY-MM-DD`: four digits, hyphen, two digits, hyphen,
two digits. -/
def isYMD (s : String) : Bool :=
  match s.data with
  | [y1, y2, y3, y4, '-', m1, m2, '-', d1, d2] =>
    [y1, y2, y3, y4, m1, m2, d1, d2].all Char.isDigit
  | _ => false

/-- Cell that is a string of the form `YYYY-MM-DD`. -/
def Cell.isYMD : Cell → Bool
  | .str s => DiamondPalace.isYMD s
  | _ => false

/-- Review cell that is text or falsy (empty, `0`, `false`). -/
def textOrFalsy : Cell → Bool
  | .str _ => true
  | c => !c.truthy

/-- Row kept by the filter of `getReviews` when its review cell is text. -/
def hasText (row : ReviewRow) : Bool :=
  match row.review with
  | .str s => jsTrim s != ""
  | _ => false

/-- Normalised dates of the data rows of a `Bookings` sheet. -/
def dayCells (rt : Runtime) (T : List BookingRow) : List Cell :=
  (T.drop 1).map fun row => dateKey rt row.date

/-- The sheet has its header row, and two data rows have the same normalised
date only when that date is the empty cell. -/
def oneRowPerDay (rt : Runtime) (T : List BookingRow) : Prop :=
  T ≠ [] ∧ (dayCells rt T).Pairwise fun a b => a = b → a = .str ""

/-! ## Basic facts -/

theorem looseEq_ofJSVal_self (rt : Runtime) (d : JSVal) (hu : d ≠ .undefined)
    (hn : d ≠ .null) : looseEq rt (dateKey rt (Cell.ofJSVal d)) d = true := by
  cases d <;> simp_all [Cell.ofJSVal, dateKey, looseEq, looseEqPrim]

theorem createBooking_success_iff (rt : Runtime) (now : Int) (T : List BookingRow)
    (r : Request) :
    (createBooking rt now T r).1.success = true ↔
      (T.drop 1).any (dateMatches rt r.booked_date) = false := by
  unfold createBooking
  cases h : (T.drop 1).any (dateMatches rt r.booked_date) <;> simp

theorem createBooking_of_success (rt : Runtime) (now : Int) (T : List BookingRow)
    (r : Request) (hok : (createBooking rt now T r).1.success = true) :
    createBooking rt now T r = (⟨true, "Booking Created"⟩, T ++ [newBookingRow now r]) := by
  have h := (createBooking_success_iff rt now T r).1 hok
  unfold createBooking
  rw [h]
  simp

theorem createBooking_of_match (rt : Runtime) (now : Int) (T : List BookingRow)
    (r : Request) (h : (T.drop 1).any (dateMatches rt r.booked_date) = true) :
    createBooking rt now T r = (⟨false, "Date already booked"⟩, T) := by
  unfold createBooking
  rw [h]
  simp

theorem looseEq_text_iff (rt : Runtime) (c : Cell) (d : String)
    (hc : (∃ ms, c = .date ms) ∨ (∃ t, c = .str t)) :
    looseEq rt (dateKey rt c) (.str d) = true ↔ dateKey rt c = .str d := by
  rcases hc with ⟨ms, rfl⟩ | ⟨t, rfl⟩ <;> simp [dateKey, looseEq, looseEqPrim]

theorem scanFrom_eq_none_iff (p : BookingRow → Bool) (l : List BookingRow) (i : Nat) :
    scanFrom p l i = none ↔ ∀ row ∈ l, p row = false := by
  induction l generalizing i with
  | nil => simp [scanFrom]
  | cons a l ih =>
    cases ha : p a <;> simp [scanFrom, ha, ih]

theorem scanFrom_first (p : BookingRow → Bool) (pre post : List BookingRow)
    (row : BookingRow) (i : Nat) (hpre : ∀ x ∈ pre, p x = false) (hrow : p row = true) :
    scanFrom p (pre ++ row :: post) i = some (i + pre.length) := by
  induction pre generalizing i with
  | nil => simp [scanFrom, hrow]
  | cons a pre ih =>
    have ha : p a = false := hpre a (List.mem_cons_self a pre)
    have hrest : ∀ x ∈ pre, p x = false := fun x hx => hpre x (List.mem_cons_of_mem a hx)
    have hstep : scanFrom p (a :: pre ++ row :: post) i =
        scanFrom p (pre ++ row :: post) (i + 1) := by
      simp [scanFrom, ha]
    rw [hstep, ih (i + 1) hrest, List.length_cons]
    congr 1
    omega

theorem modifyRow_at (f : BookingRow → BookingRow) (pre post : List BookingRow)
    (row : BookingRow) : modifyRow f (pre ++ row :: post) pre.length = pre ++ f row :: post := by
  induction pre with
  | nil => simp [modifyRow]
  | cons a pre ih => simp [modifyRow, ih]

theorem setValue_at (h : BookingRow) (pre post : List BookingRow) (row : BookingRow)
    (col : Nat) (v : JSVal) :
    setValue (h :: (pre ++ row :: post)) (1 + pre.length + 1) col v =
      h :: (pre ++ row.setCol col (Cell.ofJSVal v) :: post) := by
  have hidx : 1 + pre.length + 1 - 1 = pre.length + 1 := by omega
  simp only [setValue, hidx, modifyRow]
  rw [modifyRow_at]

/-! ## Theorems on `createBooking` -/

/-- C1 (counterexample): a booking whose `booked_date` is `null` is accepted on
the header-only sheet and stores an empty date cell, and a second booking with
`booked_date` `null` is accepted too (`"" == null` is false); and on a sheet
without a header row the first booking becomes row 0, which the loop never
compares, so a second booking of the same date 2025-06-15 is accepted. -/
theorem createBooking_same_date_accepted_twice :
    createBooking Runtime.sample 8 [bookingsHeader] { ashaRequest with booked_date := .null } =
      (⟨true, "Booking Created"⟩,
        [bookingsHeader, newBookingRow 8 { ashaRequest with booked_date := .null }]) ∧
    (createBooking Runtime.sample 9
        [bookingsHeader, newBookingRow 8 { ashaRequest with booked_date := .null }]
        { ashaRequest with booked_date := .null }).1 = ⟨true, "Booking Created"⟩ ∧
    createBooking Runtime.sample 8 [] ashaRequest =
      (⟨true, "Booking Created"⟩, [newBookingRow 8 ashaRequest]) ∧
    createBooking Runtime.sample 9 [newBookingRow 8 ashaRequest] ashaRequest =
      (⟨true, "Booking Created"⟩, [newBookingRow 8 ashaRequest, newBookingRow 9 ashaRequest]) := by
  decide

/-- C1 (amended): on a `Bookings` sheet that holds its header row (`h`, then
the booking rows), once `createBooking` has succeeded for a request that
carries a date `D` (a value other than `null`, the key not absent), a later
`createBooking` for any request carrying the same `D` answers
`{success: false, message: "Date already booked"}` and leaves the sheet as the
first call left it. -/
theorem createBooking_same_date_refused (rt : Runtime) (now now' : Int) (h : BookingRow)
    (rows : List BookingRow) (r r' : Request) (D : JSVal)
    (hr : r.booked_date = D) (hr' : r'.booked_date = D)
    (hu : D ≠ .undefined) (hn : D ≠ .null)
    (hok : (createBooking rt now (h :: rows) r).1.success = true) :
    createBooking rt now' (createBooking rt now (h :: rows) r).2 r' =
      (⟨false, "Date already booked"⟩, (createBooking rt now (h :: rows) r).2) := by
  rw [createBooking_of_success rt now (h :: rows) r hok]
  apply createBooking_of_match
  subst hr
  have hself := looseEq_ofJSVal_self rt r.booked_date hu hn
  simp [dateMatches, newBookingRow, hr', hself]

theorem createBooking_same_date_refused_witness :
    createBooking Runtime.sample 1
        (createBooking Runtime.sample 0 [bookingsHeader] ashaRequest).2
        { ashaRequest with full_name := .str "Ravi" } =
      (⟨false, "Date already booked"⟩,
        (createBooking Runtime.sample 0 [bookingsHeader] ashaRequest).2) :=
  createBooking_same_date_refused Runtime.sample 0 1 bookingsHeader [] ashaRequest
    { ashaRequest with full_name := .str "Ravi" } (.str "2025-06-15") rfl rfl
    (by decide) (by decide) (by decide)

/-- C7: `createBooking` answers "Date already booked" exactly when some data
row (index 1 and up) has a date that, normalised (`Date` cell formatted as
yyyy-MM-dd in GMT+5:30, other cells as stored), `==` the request's
`booked_date`; the sheet is then unchanged.  For a `Date` or text cell and a
text `booked_date`, `==` is equality of the normalised date with the text. -/
theorem createBooking_refused_iff (rt : Runtime) (now : Int) (T : List BookingRow)
    (r : Request) :
    ((createBooking rt now T r).1 = ⟨false, "Date already booked"⟩ ↔
        ∃ row ∈ T.drop 1, looseEq rt (dateKey rt row.date) r.booked_date = true) ∧
    ((createBooking rt now T r).1 = ⟨false, "Date already booked"⟩ →
        (createBooking rt now T r).2 = T) ∧
    (∀ (c : Cell) (d : String), ((∃ ms, c = .date ms) ∨ (∃ t, c = .str t)) →
        (looseEq rt (dateKey rt c) (.str d) = true ↔ dateKey rt c = .str d)) := by
  refine ⟨?_, ?_, fun c d hc => looseEq_text_iff rt c d hc⟩
  · unfold createBooking
    cases h : (T.drop 1).any (dateMatches rt r.booked_date)
    · simp only [Bool.false_eq_true, if_false]
      constructor
      · intro hrep
        exact absurd (congrArg Reply.success hrep) (by simp)
      · rintro ⟨row, hmem, hrow⟩
        have : (T.drop 1).any (dateMatches rt r.booked_date) = true :=
          List.any_eq_true.2 ⟨row, hmem, hrow⟩
        rw [h] at this
        exact absurd this (by simp)
    · simp only [if_true, true_iff]
      obtain ⟨row, hmem, hrow⟩ := List.any_eq_true.1 h
      exact ⟨row, hmem, hrow⟩
  · unfold createBooking
    cases h : (T.drop 1).any (dateMatches rt r.booked_date)
    · simp only [Bool.false_eq_true, if_false]
      intro hrep
      exact absurd (congrArg Reply.success hrep) (by simp)
    · simp

/-- C8: when `createBooking` succeeds, the sheet afterwards is the prior sheet
followed by the single new row
`[full_name, mo_number, location, booked_date, now, "Pending", "Pending", ""]`. -/
theorem createBooking_success_appends (rt : Runtime) (now : Int) (T : List BookingRow)
    (r : Request) (hok : (createBooking rt now T r).1.success = true) :
    (createBooking rt now T r).2 =
      T ++ [⟨Cell.ofJSVal r.full_name, Cell.ofJSVal r.mo_number, Cell.ofJSVal r.location,
             Cell.ofJSVal r.booked_date, .date now, .str "Pending", .str "Pending",
             .str ""⟩] := by
  rw [createBooking_of_success rt now T r hok]
  rfl

theorem createBooking_success_appends_witness :
    (createBooking Runtime.sample 7 [bookingsHeader] ashaRequest).2 =
      [bookingsHeader] ++ [⟨.str "Asha", .str "9999999999", .str "Delhi", .str "2025-06-15",
        .date 7, .str "Pending", .str "Pending", .str ""⟩] :=
  createBooking_success_appends Runtime.sample 7 [bookingsHeader] ashaRequest (by decide)

/-! ## Theorems on `updateBooking` -/

/-- C9: `updateBooking` answers "Booking not found" exactly when no data row
has a normalised date `==` the request's `booked_date`; the sheet is then
unchanged; in every other case the reply has `success = true`. -/
theorem updateBooking_not_found_iff (rt : Runtime) (T : List BookingRow) (r : Request) :
    ((updateBooking rt T r).1 = ⟨false, "Booking not found"⟩ ↔
        ∀ row ∈ T.drop 1, looseEq rt (dateKey rt row.date) r.booked_date = false) ∧
    ((updateBooking rt T r).1 = ⟨false, "Booking not found"⟩ →
        (updateBooking rt T r).2 = T) ∧
    ((updateBooking rt T r).1 ≠ ⟨false, "Booking not found"⟩ →
        (updateBooking rt T r).1 = ⟨true, "Updated"⟩) ∧
    (∀ (c : Cell) (d : String), ((∃ ms, c = .date ms) ∨ (∃ t, c = .str t)) →
        (looseEq rt (dateKey rt c) (.str d) = true ↔ dateKey rt c = .str d)) := by
  have key := scanFrom_eq_none_iff (dateMatches rt r.booked_date) (T.drop 1) 1
  refine ⟨?_, ?_, ?_, fun c d hc => looseEq_text_iff rt c d hc⟩
  · unfold updateBooking
    cases h : scanFrom (dateMatches rt r.booked_date) (T.drop 1) 1 with
    | none => simpa [dateMatches] using key.1 h
    | some i =>
      constructor
      · intro hrep
        exact absurd (congrArg Reply.success hrep) (by simp)
      · intro hall
        rw [key.2 hall] at h
        exact absurd h (by simp)
  · unfold updateBooking
    cases h : scanFrom (dateMatches rt r.booked_date) (T.drop 1) 1 with
    | none => simp
    | some i =>
      intro hrep
      exact absurd (congrArg Reply.success hrep) (by simp)
  · unfold updateBooking
    cases h : scanFrom (dateMatches rt r.booked_date) (T.drop 1) 1 with
    | none => simp
    | some i => simp

/-- C2: when the first data row whose date matches the request is `row`
(the rows `pre` before it do not match), `updateBooking` succeeds and the
sheet afterwards differs from the prior one only in that row, and there only
in the cells of `status`, `payment_status` and `admin_notes` that the request
carries (`!== undefined`), each set to the value given; a text value is stored
verbatim.  Header, other rows, other cells and the row count are as before. -/
theorem updateBooking_frame (rt : Runtime) (h : BookingRow) (pre post : List BookingRow)
    (row : BookingRow) (r : Request)
    (hpre : ∀ x ∈ pre, dateMatches rt r.booked_date x = false)
    (hrow : dateMatches rt r.booked_date row = true) :
    updateBooking rt (h :: (pre ++ row :: post)) r =
      (⟨true, "Updated"⟩,
        h :: (pre ++
          { name := row.name, mobile := row.mobile, location := row.location,
            date := row.date, timestamp := row.timestamp,
            status := if r.status = .undefined then row.status else Cell.ofJSVal r.status,
            payment := if r.payment_status = .undefined then row.payment
              else Cell.ofJSVal r.payment_status,
            notes := if r.admin_notes = .undefined then row.notes
              else Cell.ofJSVal r.admin_notes } :: post)) ∧
    (∀ s : String, Cell.ofJSVal (.str s) = .str s) := by
  refine ⟨?_, fun s => rfl⟩
  unfold updateBooking
  have hscan := scanFrom_first (dateMatches rt r.booked_date) pre post row 1 hpre hrow
  simp only [List.drop_succ_cons, List.drop_zero, hscan]
  by_cases h1 : r.status = .undefined <;> by_cases h2 : r.payment_status = .undefined <;>
    by_cases h3 : r.admin_notes = .undefined <;>
    simp [h1, h2, h3, setValue_at, BookingRow.setCol]

theorem updateBooking_frame_witness :
    updateBooking Runtime.sample
        [bookingsHeader, newBookingRow 7 { ashaRequest with booked_date := .str "2025-06-14" },
          newBookingRow 8 ashaRequest] confirmRequest =
      (⟨true, "Updated"⟩,
        [bookingsHeader, newBookingRow 7 { ashaRequest with booked_date := .str "2025-06-14" },
          ⟨.str "Asha", .str "9999999999", .str "Delhi", .str "2025-06-15", .date 8,
            .str "Confirmed", .str "Paid", .str ""⟩]) :=
  (updateBooking_frame Runtime.sample bookingsHeader
    [newBookingRow 7 { ashaRequest with booked_date := .str "2025-06-14" }] []
    (newBookingRow 8 ashaRequest) confirmRequest (by decide) (by decide)).1

/-! ## Theorems on `addReview` -/

theorem validates_iff (rt : Runtime) (target : String) (row : BookingRow) :
    validates rt target row = true ↔
      jsTrim (row.mobile.toStr rt) = target ∧
      (row.status = .str "Confirmed" ∨ row.status = .str "Booked") ∧
      (row.payment = .str "Done" ∨ row.payment = .str "Paid") := by
  simp [validates, mobileMatches, statusOk]

theorem addReview_of_none (rt : Runtime) (now : Int) (T : List BookingRow)
    (R : List ReviewRow) (r : Request)
    (h : (T.drop 1).find? (validates rt (jsTrim r.mobile.toStr)) = none) :
    addReview rt now T R r = (⟨false, notEligibleMessage⟩, R) := by
  simp only [addReview, h]

theorem addReview_of_some (rt : Runtime) (now : Int) (T : List BookingRow)
    (R : List ReviewRow) (r : Request) (row : BookingRow)
    (h : (T.drop 1).find? (validates rt (jsTrim r.mobile.toStr)) = some row) :
    addReview rt now T R r =
      (⟨true, "Review Added Successfully!"⟩,
        R ++ [⟨row.name, Cell.ofJSVal r.review, .date now,
               Cell.ofJSVal (jsOr r.rating (.num 5))⟩]) := by
  simp only [addReview, h]

/-- C3: for every `Bookings` sheet and every request (whatever its review
text), `addReview` succeeds exactly when some data row has the request's mobile
number (both sides as `String(..).trim()`), a status `Confirmed` or `Booked`
and a payment `Done` or `Paid`; otherwise it answers the eligibility message
and leaves the `Reviews` sheet unchanged. -/
theorem addReview_success_iff (rt : Runtime) (now : Int) (T : List BookingRow)
    (R : List ReviewRow) (r : Request) :
    ((addReview rt now T R r).1.success = true ↔
      ∃ row ∈ T.drop 1,
        jsTrim (row.mobile.toStr rt) = jsTrim r.mobile.toStr ∧
        (row.status = .str "Confirmed" ∨ row.status = .str "Booked") ∧
        (row.payment = .str "Done" ∨ row.payment = .str "Paid")) ∧
    ((addReview rt now T R r).1.success ≠ true →
      addReview rt now T R r = (⟨false, notEligibleMessage⟩, R)) := by
  cases h : (T.drop 1).find? (validates rt (jsTrim r.mobile.toStr)) with
  | none =>
    rw [addReview_of_none rt now T R r h]
    refine ⟨?_, fun _ => rfl⟩
    constructor
    · intro hs
      exact absurd hs (by simp)
    · rintro ⟨row, hmem, hrow⟩
      have hv := (validates_iff rt (jsTrim r.mobile.toStr) row).2 hrow
      have := List.find?_eq_none.1 h row hmem
      exact absurd hv this
  | some row =>
    rw [addReview_of_some rt now T R r row h]
    refine ⟨?_, fun hne => absurd rfl hne⟩
    constructor
    · intro _
      exact ⟨row, List.mem_of_find?_eq_some h,
        (validates_iff rt (jsTrim r.mobile.toStr) row).1 (List.find?_some h)⟩
    · intro _
      rfl

/-- C10: when `addReview` succeeds, the first data row of the `Bookings` sheet
that passes the eligibility test for the request's mobile number (no row of
`pre` before it passes) is the row whose `name` cell is stored as the name of
the appended review row; every request with the same `mobile` value, whatever
its other fields and whenever it is made on these sheets, succeeds too and
stores that same name. -/
theorem addReview_name_from_booking (rt : Runtime) (now : Int) (T : List BookingRow)
    (R : List ReviewRow) (r : Request)
    (hok : (addReview rt now T R r).1.success = true) :
    ∃ (pre : List BookingRow) (row : BookingRow) (post : List BookingRow),
      T.drop 1 = pre ++ row :: post ∧
      (∀ x ∈ pre, validates rt (jsTrim r.mobile.toStr) x = false) ∧
      validates rt (jsTrim r.mobile.toStr) row = true ∧
      ∀ (r' : Request) (now' : Int), r'.mobile = r.mobile →
        ∃ x : ReviewRow,
          addReview rt now' T R r' = (⟨true, "Review Added Successfully!"⟩, R ++ [x]) ∧
          x.name = row.name := by
  cases h : (T.drop 1).find? (validates rt (jsTrim r.mobile.toStr)) with
  | none =>
    rw [addReview_of_none rt now T R r h] at hok
    exact absurd hok (by simp)
  | some row =>
    obtain ⟨hrow, pre, post, hsplit, hpre⟩ := List.find?_eq_some.1 h
    refine ⟨pre, row, post, hsplit, ?_, hrow, ?_⟩
    · intro x hx
      simpa using hpre x hx
    · intro r' now' hm
      rw [← hm] at h
      exact ⟨_, addReview_of_some rt now' T R r' row h, rfl⟩

theorem addReview_name_from_booking_witness :
    ∃ (pre : List BookingRow) (row : BookingRow) (post : List BookingRow),
      [bookingsHeader, ashaConfirmedRow].drop 1 = pre ++ row :: post ∧
      (∀ x ∈ pre, validates Runtime.sample (jsTrim ashaReview.mobile.toStr) x = false) ∧
      validates Runtime.sample (jsTrim ashaReview.mobile.toStr) row = true ∧
      ∀ (r' : Request) (now' : Int), r'.mobile = ashaReview.mobile →
        ∃ x : ReviewRow,
          addReview Runtime.sample now' [bookingsHeader, ashaConfirmedRow] [reviewsHeader] r' =
            (⟨true, "Review Added Successfully!"⟩, [reviewsHeader] ++ [x]) ∧
          x.name = row.name :=
  addReview_name_from_booking Runtime.sample 9 [bookingsHeader, ashaConfirmedRow]
    [reviewsHeader] ashaReview (by decide)

/-! ## Theorems on `getReviews` -/

theorem keepReview_text (row : ReviewRow) (h : textOrFalsy row.review = true) :
    keepReview row.review = .ok (hasText row) := by
  cases hrev : row.review with
  | str t =>
    by_cases ht : t = ""
    · subst ht
      simp [keepReview, hasText, hrev, Cell.truthy, jsTrim]
    · simp [keepReview, hasText, hrev, Cell.truthy, ht]
  | num n =>
    have hn : n = 0 := by simpa [textOrFalsy, hrev, Cell.truthy] using h
    simp [keepReview, hasText, hrev, Cell.truthy, hn]
  | bool b =>
    have hb : b = false := by simpa [textOrFalsy, hrev, Cell.truthy] using h
    simp [keepReview, hasText, hrev, Cell.truthy, hb]
  | date ms =>
    simp [textOrFalsy, hrev, Cell.truthy] at h

theorem filterReviews_text (rows : List ReviewRow)
    (h : ∀ row ∈ rows, textOrFalsy row.review = true) :
    filterReviews (rows.map toReview) = .ok ((rows.filter hasText).map toReview) := by
  induction rows with
  | nil => rfl
  | cons a rows ih =>
    have ha := keepReview_text a (h a (List.mem_cons_self a rows))
    have ih' := ih (fun row hrow => h row (List.mem_cons_of_mem a hrow))
    have hrev : (toReview a).review = a.review := rfl
    simp only [List.map_cons, filterReviews, ih', hrev, ha]
    cases hkeep : hasText a <;> simp [List.filter_cons, hkeep]

/-- On a `Reviews` sheet whose review cells are text or falsy, `getReviews`
returns the data rows with non-blank text, each once, latest row first. -/
theorem getReviews_text (R : List ReviewRow)
    (h : ∀ row ∈ R.drop 1, textOrFalsy row.review = true) :
    getReviews R = .ok (((R.drop 1).filter hasText).map toReview).reverse := by
  unfold getReviews
  rw [filterReviews_text (R.drop 1) h]

/-- C4 (failing input): `addReview` accepts a review whose text is the number
10 from an eligible guest and appends it, and on the resulting `Reviews` sheet
`getReviews` throws a `TypeError` instead of returning the row. -/
theorem getReviews_numeric_review_throws :
    addReview Runtime.sample 9 [bookingsHeader, ashaConfirmedRow] [reviewsHeader]
        numericReview =
      (⟨true, "Review Added Successfully!"⟩,
        [reviewsHeader, ⟨.str "Asha", .num 10, .date 9, .num 5⟩]) ∧
    getReviews [reviewsHeader, ⟨.str "Asha", .num 10, .date 9, .num 5⟩] =
      .error "TypeError: r.review.trim is not a function" := by
  constructor
  · decide
  · rfl

/-! ## Theorems on the calendar -/

theorem jsOr_truthy (a b : JSVal) (hb : b.truthy = true) : (jsOr a b).truthy = true := by
  unfold jsOr
  split
  · assumption
  · exact hb

theorem processLoop_truthy (rt : Runtime) (bs : List BookingJson) (st : ClientState)
    (hst : ∀ k v, (k, v) ∈ st.bookingsMap → v.truthy = true) :
    ∀ k v, (k, v) ∈ (processLoop rt bs st).1.bookingsMap → v.truthy = true := by
  induction bs generalizing st with
  | nil => simpa [processLoop] using hst
  | cons b bs ih =>
    unfold processLoop
    simp only
    split
    · cases hiso : rt.isoDay (jsOr b.booked_date b.date) with
      | none => simpa using hst
      | some d =>
        apply ih
        intro k v hkv
        rcases List.mem_cons.1 hkv with heq | hmem
        · have hv : v = jsOr (jsOr b.full_name b.name) (.str "Unknown") :=
            (Prod.mk.inj heq).2
          rw [hv]
          exact jsOr_truthy _ _ rfl
        · exact hst k v hmem
    · exact ih st hst

/-- Every name `processBookingData` stores in `bookingsMap` is truthy (the
name falls back to `"Unknown"`). -/
theorem processBookingData_truthy (rt : Runtime) (prev : ClientState)
    (bs : List BookingJson) :
    ∀ k v, (k, v) ∈ (processBookingData rt prev bs).1.bookingsMap → v.truthy = true := by
  unfold processBookingData
  apply processLoop_truthy
  intro k v hkv
  simp at hkv

/-- Every name the optimistic update of `submitBooking` stores is truthy (the
name falls back to `"You"`). -/
theorem optimisticUpdate_truthy (st : ClientState) (booked_date full_name : String)
    (hst : ∀ k v, (k, v) ∈ st.bookingsMap → v.truthy = true) :
    ∀ k v, (k, v) ∈ (optimisticUpdate st booked_date full_name).bookingsMap →
      v.truthy = true := by
  intro k v hkv
  unfold optimisticUpdate at hkv
  simp only at hkv
  split at hkv
  · rcases List.mem_cons.1 hkv with heq | hmem
    · rw [(Prod.mk.inj heq).2]
      exact jsOr_truthy _ _ rfl
    · exact hst k v hmem
  · exact hst k v hkv

theorem get_truthy_iff (m : BookingsMap) (hm : ∀ k v, (k, v) ∈ m → v.truthy = true)
    (key : String) : (m.get key).truthy = true ↔ ∃ v, (key, v) ∈ m := by
  induction m with
  | nil => simp [BookingsMap.get, List.lookup, JSVal.truthy]
  | cons kv m ih =>
    obtain ⟨k, v⟩ := kv
    have hrest : ∀ k' v', (k', v') ∈ m → v'.truthy = true :=
      fun k' v' h => hm k' v' (List.mem_cons_of_mem _ h)
    by_cases hk : key = k
    · subst hk
      have hv : v.truthy = true := hm key v (List.mem_cons_self _ _)
      have hget : BookingsMap.get ((key, v) :: m) key = v := by
        simp [BookingsMap.get, List.lookup]
      rw [hget]
      exact ⟨fun _ => ⟨v, List.mem_cons_self _ _⟩, fun _ => hv⟩
    · have hget : BookingsMap.get ((k, v) :: m) key = BookingsMap.get m key := by
        have hbeq : (key == k) = false := by simpa using hk
        simp [BookingsMap.get, List.lookup, hbeq]
      rw [hget, ih hrest]
      constructor
      · rintro ⟨w, hw⟩
        exact ⟨w, List.mem_cons_of_mem _ hw⟩
      · rintro ⟨w, hw⟩
        rcases List.mem_cons.1 hw with heq | hmem
        · exact absurd (Prod.mk.inj heq).1 hk
        · exact ⟨w, hmem⟩

theorem before_iff (a b : LocalDay) :
    a.before b = true ↔
      a.year < b.year ∨ (a.year = b.year ∧
        (a.month < b.month ∨ (a.month = b.month ∧ a.day < b.day))) := by
  simp [LocalDay.before]

/-- C5: for a booking snapshot `m` (every stored name truthy, as both writers
of `bookingsMap` store it), any `today` and any day `i` of the displayed
month, `renderCalendar` emits one element per day, the one for day `i` at
position `i`, and its state is: booked when `m` has an entry for the date (past
or not); otherwise past when the date is strictly before today; otherwise
available, so that today itself, when not booked, is available. -/
theorem renderCalendar_day_state (m : BookingsMap) (today : LocalDay) (year month i : Nat)
    (hm : ∀ k v, (k, v) ∈ m → v.truthy = true)
    (h1 : 1 ≤ i) (h2 : i ≤ daysInMonth year month) :
    (renderCalendar m today year month).length = daysInMonth year month ∧
    ∃ st : DayState,
      (renderCalendar m today year month)[i - 1]? =
        some ⟨i, dateStrOf year month i, st⟩ ∧
      ((∃ v, (dateStrOf year month i, v) ∈ m) → st = .booked) ∧
      ((¬ ∃ v, (dateStrOf year month i, v) ∈ m) →
        (year < today.year ∨ (year = today.year ∧
          (month < today.month ∨ (month = today.month ∧ i < today.day)))) →
        st = .past) ∧
      ((¬ ∃ v, (dateStrOf year month i, v) ∈ m) →
        ¬ (year < today.year ∨ (year = today.year ∧
          (month < today.month ∨ (month = today.month ∧ i < today.day)))) →
        st = .available) ∧
      ((¬ ∃ v, (dateStrOf year month i, v) ∈ m) → today = ⟨year, month, i⟩ →
        st = .available) := by
  have hentry := get_truthy_iff m hm (dateStrOf year month i)
  have hbefore := before_iff ⟨year, month, i⟩ today
  simp only at hbefore
  have hi : i - 1 + 1 = i := by omega
  have hlt : i - 1 < daysInMonth year month := by omega
  refine ⟨by simp [renderCalendar], dayState m today year month i, ?_, ?_, ?_, ?_, ?_⟩
  · simp [renderCalendar, List.getElem?_map, List.getElem?_range hlt, hi]
  · intro he
    simp [dayState, hentry.2 he]
  · intro hne hb
    have hf : (m.get (dateStrOf year month i)).truthy = false := by
      cases hc : (m.get (dateStrOf year month i)).truthy
      · rfl
      · exact absurd (hentry.1 hc) hne
    simp [dayState, hf, hbefore.2 hb]
  · intro hne hb
    have hf : (m.get (dateStrOf year month i)).truthy = false := by
      cases hc : (m.get (dateStrOf year month i)).truthy
      · rfl
      · exact absurd (hentry.1 hc) hne
    have hnb : (LocalDay.mk year month i).before today = false := by
      cases hc : (LocalDay.mk year month i).before today
      · rfl
      · exact absurd (hbefore.1 hc) hb
    simp [dayState, hf, hnb]
  · intro hne htoday
    have hf : (m.get (dateStrOf year month i)).truthy = false := by
      cases hc : (m.get (dateStrOf year month i)).truthy
      · rfl
      · exact absurd (hentry.1 hc) hne
    have hnb : (LocalDay.mk year month i).before today = false := by
      rw [htoday]
      simp [LocalDay.before]
    simp [dayState, hf, hnb]

theorem renderCalendar_day_state_witness :
    (1 ≤ 10 ∧ 10 ≤ daysInMonth 2025 5) ∧
    (renderCalendar [("2025-06-10", .str "Asha")] ⟨2025, 5, 15⟩ 2025 5).length =
      daysInMonth 2025 5 :=
  ⟨⟨by decide, by decide⟩,
    (renderCalendar_day_state [("2025-06-10", .str "Asha")] ⟨2025, 5, 15⟩ 2025 5 10
      (by
        intro k v hkv
        rcases List.mem_singleton.1 hkv with heq
        rw [(Prod.mk.inj heq).2]
        rfl)
      (by decide) (by decide)).1⟩

/-! ## One booking per day -/

theorem dateKey_ofJSVal (rt : Runtime) (d : JSVal) :
    dateKey rt (Cell.ofJSVal d) = Cell.ofJSVal d := by
  cases d <;> rfl

theorem createBooking_oneRowPerDay (rt : Runtime) (now : Int) (T : List BookingRow)
    (r : Request) (hT : oneRowPerDay rt T) :
    oneRowPerDay rt (createBooking rt now T r).2 := by
  obtain ⟨hne, hpair⟩ := hT
  cases hany : (T.drop 1).any (dateMatches rt r.booked_date) with
  | true =>
    rw [createBooking_of_match rt now T r hany]
    exact ⟨hne, hpair⟩
  | false =>
    have hok := (createBooking_success_iff rt now T r).2 hany
    rw [createBooking_of_success rt now T r hok]
    obtain ⟨h, rows, rfl⟩ := List.exists_cons_of_ne_nil hne
    refine ⟨by simp, ?_⟩
    have hcells : dayCells rt (h :: rows ++ [newBookingRow now r]) =
        dayCells rt (h :: rows) ++ [Cell.ofJSVal r.booked_date] := by
      simp [dayCells, newBookingRow, dateKey_ofJSVal]
    rw [hcells, List.pairwise_append]
    refine ⟨hpair, List.pairwise_singleton _ _, ?_⟩
    intro a ha b hb heq
    rw [List.mem_singleton] at hb
    subst hb
    obtain ⟨row, hrow, rfl⟩ := List.mem_map.1 ha
    have hno : dateMatches rt r.booked_date row = false := by
      have := List.any_eq_false.1 hany row hrow
      simpa using this
    by_cases hu : r.booked_date = .undefined
    · rw [heq, hu]; rfl
    · by_cases hn : r.booked_date = .null
      · rw [heq, hn]; rfl
      · have hself := looseEq_ofJSVal_self rt r.booked_date hu hn
        rw [dateKey_ofJSVal, ← heq] at hself
        rw [dateMatches, hself] at hno
        exact absurd hno (by simp)

theorem modifyRow_dates (f : BookingRow → BookingRow) (hf : ∀ row, (f row).date = row.date)
    (l : List BookingRow) (i : Nat) :
    (modifyRow f l i).map (fun row => row.date) = l.map fun row => row.date := by
  induction l generalizing i with
  | nil => rfl
  | cons a l ih =>
    cases i with
    | zero => simp [modifyRow, hf]
    | succ i => simp [modifyRow, ih]

theorem setValue_dates (T : List BookingRow) (rowIndex col : Nat) (v : JSVal)
    (hcol : col = 6 ∨ col = 7 ∨ col = 8) :
    (setValue T rowIndex col v).map (fun row => row.date) = T.map fun row => row.date := by
  unfold setValue
  apply modifyRow_dates
  intro row
  rcases hcol with rfl | rfl | rfl <;> rfl

theorem updateBooking_dates (rt : Runtime) (T : List BookingRow) (r : Request) :
    (updateBooking rt T r).2.map (fun row => row.date) = T.map fun row => row.date := by
  unfold updateBooking
  cases scanFrom (dateMatches rt r.booked_date) (T.drop 1) 1 with
  | none => rfl
  | some i =>
    simp only
    split <;> split <;> split <;> simp [setValue_dates]

theorem dayCells_eq_of_dates (rt : Runtime) (T T' : List BookingRow)
    (h : T'.map (fun row => row.date) = T.map fun row => row.date) :
    dayCells rt T' = dayCells rt T := by
  have key : ∀ L : List BookingRow,
      dayCells rt L = ((L.map fun row => row.date).drop 1).map (dateKey rt) := by
    intro L
    cases L with
    | nil => rfl
    | cons a L => simp [dayCells]
  rw [key T', key T, h]

theorem updateBooking_oneRowPerDay (rt : Runtime) (T : List BookingRow) (r : Request)
    (hT : oneRowPerDay rt T) : oneRowPerDay rt (updateBooking rt T r).2 := by
  obtain ⟨hne, hpair⟩ := hT
  have hdates := updateBooking_dates rt T r
  refine ⟨?_, ?_⟩
  · intro hnil
    rw [hnil] at hdates
    simp at hdates
    exact hne hdates
  · rw [dayCells_eq_of_dates rt T _ hdates]
    exact hpair

theorem step_oneRowPerDay (rt : Runtime) (s : Store) (c : Call)
    (hs : oneRowPerDay rt s.bookings) : oneRowPerDay rt (s.step rt c).bookings := by
  cases c with
  | book now data => exact createBooking_oneRowPerDay rt now s.bookings data hs
  | update data => exact updateBooking_oneRowPerDay rt s.bookings data hs
  | review now data => exact hs

theorem run_oneRowPerDay (rt : Runtime) (calls : List Call) (s : Store)
    (hs : oneRowPerDay rt s.bookings) : oneRowPerDay rt (s.run rt calls).bookings := by
  induction calls generalizing s with
  | nil => exact hs
  | cons c calls ih => exact ih (s.step rt c) (step_oneRowPerDay rt s c hs)

theorem countP_le_one_of_pairwise (l : List Cell) (day : Cell) (hday : day ≠ .str "")
    (h : l.Pairwise fun a b => a = b → a = .str "") :
    l.countP (fun c => c == day) ≤ 1 := by
  induction l with
  | nil => simp
  | cons a l ih =>
    obtain ⟨ha, hl⟩ := List.pairwise_cons.1 h
    by_cases heq : a = day
    · have hzero : l.countP (fun c => c == day) = 0 := by
        rw [List.countP_eq_zero]
        intro b hb hbd
        have hbd' : b = day := by simpa using hbd
        have := ha b hb (by rw [hbd', heq])
        exact hday (heq ▸ this)
      simp [List.countP_cons, hzero, heq]
    · have hne : (a == day) = false := by simpa using heq
      simp only [List.countP_cons, hne]
      simpa using ih hl

/-- C6 (counterexample): from the header-only sheet, two bookings whose
`booked_date` is `null` leave two data rows with the same (empty) normalised
date, and bookings of 15 June 2025 written `2025-06-15` and `15/06/2025` leave
two data rows for that one day, since text is compared as stored. -/
theorem same_day_booked_twice :
    dayCells Runtime.sample
        ((Store.mk [bookingsHeader] [reviewsHeader]).run Runtime.sample
          [.book 7 { ashaRequest with booked_date := .null },
            .book 8 { ashaRequest with booked_date := .null }]).bookings =
      [.str "", .str ""] ∧
    dayCells Runtime.sample
        ((Store.mk [bookingsHeader] [reviewsHeader]).run Runtime.sample
          [.book 7 ashaRequest, .book 8 dayFirstRequest]).bookings =
      [.str "2025-06-15", .str "15/06/2025"] := by
  decide

/-- A booking of 2025-06-15 is refused on a sheet whose date cell is the native
date 15 June 2025 (GMT+5:30): the cell is compared in its `yyyy-MM-dd` form. -/
theorem native_date_blocks_booking :
    createBooking Runtime.sample 9 juneDateSheet ashaRequest =
      (⟨false, "Date already booked"⟩, juneDateSheet) := by
  decide

/-- C6 (amended): starting from a `Bookings` sheet `T0` that holds its header
row and in which no two data rows have the same non-empty normalised date (a
native date formatted as `yyyy-MM-dd` in GMT+5:30, any other cell as stored);
the header-only sheet is such a sheet; after any sequence of completed
`createBooking`, `updateBooking` and `addReview` calls the sheet is again such
a sheet: for every normalised date other than the empty cell at most one data
row has it. -/
theorem one_booking_per_day (rt : Runtime) (T0 : List BookingRow) (R : List ReviewRow)
    (calls : List Call) (day : Cell) (hT0 : oneRowPerDay rt T0) (hday : day ≠ .str "") :
    (((Store.mk T0 R).run rt calls).bookings.drop 1).countP
      (fun row => dateKey rt row.date == day) ≤ 1 ∧
    oneRowPerDay rt ((Store.mk T0 R).run rt calls).bookings ∧
    (∀ h : BookingRow, oneRowPerDay rt [h]) := by
  have hinv := run_oneRowPerDay rt calls (Store.mk T0 R) hT0
  refine ⟨?_, hinv, ?_⟩
  · have hcount := countP_le_one_of_pairwise _ day hday hinv.2
    unfold dayCells at hcount
    rw [List.countP_map] at hcount
    exact hcount
  · intro h
    refine ⟨by simp, ?_⟩
    simp [dayCells]

theorem one_booking_per_day_witness :
    (((Store.mk juneDateSheet [reviewsHeader]).run Runtime.sample
        [.book 7 ashaRequest, .book 8 dayFirstRequest, .update confirmRequest,
          .review 9 ashaReview]).bookings.drop 1).countP
      (fun row => dateKey Runtime.sample row.date == .str "2025-06-15") ≤ 1 :=
  (one_booking_per_day Runtime.sample juneDateSheet [reviewsHeader]
    [.book 7 ashaRequest, .book 8 dayFirstRequest, .update confirmRequest,
      .review 9 ashaReview] (.str "2025-06-15")
    ⟨by decide, List.pairwise_singleton _ _⟩ (by decide)).1

/-! ## The scenario of the specification -/

/-- The scenario: Asha books 2025-06-15; a second booking of that day is
refused; the admin update sets status and payment and leaves the note; Asha's
review is accepted under the booking's name; a review from an unknown mobile
number is refused. -/
theorem scenario_asha :
    createBooking Runtime.sample 8 [bookingsHeader] ashaRequest =
      (⟨true, "Booking Created"⟩, [bookingsHeader, newBookingRow 8 ashaRequest]) ∧
    createBooking Runtime.sample 9 [bookingsHeader, newBookingRow 8 ashaRequest]
        ashaRequest =
      (⟨false, "Date already booked"⟩, [bookingsHeader, newBookingRow 8 ashaRequest]) ∧
    updateBooking Runtime.sample [bookingsHeader, newBookingRow 8 ashaRequest]
        confirmRequest =
      (⟨true, "Updated"⟩, [bookingsHeader, ashaConfirmedRow]) ∧
    addReview Runtime.sample 9 [bookingsHeader, ashaConfirmedRow] [reviewsHeader]
        ashaReview =
      (⟨true, "Review Added Successfully!"⟩,
        [reviewsHeader, ⟨.str "Asha", .str "Great stay", .date 9, .num 5⟩]) ∧
    addReview Runtime.sample 9 [bookingsHeader, ashaConfirmedRow] [reviewsHeader]
        { ashaReview with mobile := .str "0000000000" } =
      (⟨false, notEligibleMessage⟩, [reviewsHeader]) := by
  refine ⟨?_, ?_, ?_, ?_, ?_⟩ <;> decide

/-! ## Ratings -/

theorem filterReviews_mem (l kept : List Review) (h : filterReviews l = .ok kept) :
    ∀ y ∈ kept, y ∈ l := by
  induction l generalizing kept with
  | nil =>
    simp only [filterReviews, Except.ok.injEq] at h
    subst h
    simp
  | cons a l ih =>
    unfold filterReviews at h
    cases hk : keepReview a.review with
    | error e => simp [hk] at h
    | ok keep =>
      cases hrest : filterReviews l with
      | error e => simp [hk, hrest] at h
      | ok rest =>
        simp only [hk, hrest, Except.ok.injEq] at h
        intro y hy
        subst h
        cases keep with
        | true =>
          rcases List.mem_cons.1 (by simpa using hy) with hya | hyr
          · exact hya ▸ List.mem_cons_self _ _
          · exact List.mem_cons_of_mem _ (ih rest hrest y hyr)
        | false =>
          exact List.mem_cons_of_mem _ (ih rest hrest y (by simpa using hy))

theorem keepReview_ok_iff (c : Cell) :
    (∃ keep, keepReview c = .ok keep) ↔ textOrFalsy c = true := by
  cases c with
  | str s =>
    refine ⟨fun _ => rfl, fun _ => ?_⟩
    unfold keepReview
    split
    · exact ⟨_, rfl⟩
    · exact ⟨_, rfl⟩
  | num n =>
    by_cases hn : n = 0 <;> simp [keepReview, textOrFalsy, Cell.truthy, hn]
  | bool v => cases v <;> simp [keepReview, textOrFalsy, Cell.truthy]
  | date ms => simp [keepReview, textOrFalsy, Cell.truthy]

theorem filterReviews_ok_only (rows : List ReviewRow) (kept : List Review)
    (h : filterReviews (rows.map toReview) = .ok kept) :
    ∀ row ∈ rows, textOrFalsy row.review = true := by
  induction rows generalizing kept with
  | nil => simp
  | cons a rows ih =>
    simp only [List.map_cons] at h
    unfold filterReviews at h
    have hrev : (toReview a).review = a.review := rfl
    rw [hrev] at h
    cases hk : keepReview a.review with
    | error e =>
      rw [hk] at h
      exact absurd h (by simp)
    | ok keep =>
      cases hrest : filterReviews (rows.map toReview) with
      | error e =>
        rw [hk, hrest] at h
        exact absurd h (by simp)
      | ok rest =>
        intro row hrow
        rcases List.mem_cons.1 hrow with rfl | hmem
        · exact (keepReview_ok_iff _).1 ⟨keep, hk⟩
        · exact ih rest hrest row hmem

/-- `getReviews` returns a list exactly on the sheets whose review cells are
all text or falsy. -/
theorem getReviews_returns_iff (R : List ReviewRow) :
    (∃ items, getReviews R = .ok items) ↔
      ∀ row ∈ R.drop 1, textOrFalsy row.review = true := by
  constructor
  · rintro ⟨items, hget⟩
    unfold getReviews at hget
    cases hf : filterReviews ((R.drop 1).map toReview) with
    | error e =>
      rw [hf] at hget
      exact absurd hget (by simp)
    | ok kept => exact filterReviews_ok_only _ kept hf
  · intro h
    exact ⟨_, getReviews_text R h⟩

/-- C11: when `addReview` succeeds, the rating cell of the appended review row
is the request's rating when that is truthy, and the number 5 when it is falsy
(`undefined`, `null`, `0`, `""`, `false`).  `getReviews`, on every `Reviews`
sheet on which it returns (review cells text or falsy), returns the rows with
non-blank text, latest first, each with the stored rating when that is truthy
and 5 otherwise; so a stored row with non-blank text whose rating cell is empty
is reported with rating 5; and every item of any list it returns comes from a
data row under that rule. -/
theorem addReview_rating (rt : Runtime) (now : Int) (T : List BookingRow)
    (R : List ReviewRow) (r : Request)
    (hok : (addReview rt now T R r).1.success = true) :
    (∃ x : ReviewRow, (addReview rt now T R r).2 = R ++ [x] ∧
      (r.rating.truthy = true → x.rating = Cell.ofJSVal r.rating) ∧
      (∀ n : Int, r.rating = .num n → n ≠ 0 → x.rating = .num n) ∧
      (r.rating.truthy = false → x.rating = .num 5) ∧
      ((r.rating = .undefined ∨ r.rating = .null ∨ r.rating = .num 0 ∨
          r.rating = .str "" ∨ r.rating = .bool false) → x.rating = .num 5)) ∧
    (∀ (R' : List ReviewRow) (items : List Review), getReviews R' = .ok items →
      ∀ y ∈ items, ∃ row ∈ R'.drop 1,
        y.name = row.name ∧ y.review = row.review ∧ y.date = row.date ∧
        (row.rating = .str "" → y.rating = .num 5) ∧
        (row.rating.truthy = true → y.rating = row.rating)) ∧
    (∀ R' : List ReviewRow, (∀ row ∈ R'.drop 1, textOrFalsy row.review = true) →
      getReviews R' = .ok (((R'.drop 1).filter hasText).map fun row =>
        { name := row.name, review := row.review, date := row.date,
          rating := if row.rating.truthy then row.rating else .num 5 }).reverse) ∧
    (∀ (R' : List ReviewRow) (row : ReviewRow),
      (∀ row' ∈ R'.drop 1, textOrFalsy row'.review = true) →
      row ∈ R'.drop 1 → hasText row = true → row.rating = .str "" →
      ∃ items, getReviews R' = .ok items ∧
        { name := row.name, review := row.review, date := row.date, rating := .num 5 }
          ∈ items) ∧
    ((getReviews unratedReviewSheet).toOption =
      some [⟨.str "Asha", .str "Great stay", .date 9, .num 5⟩]) := by
  refine ⟨?_, ?_, ?_, ?_, rfl⟩
  · cases h : (T.drop 1).find? (validates rt (jsTrim r.mobile.toStr)) with
    | none =>
      rw [addReview_of_none rt now T R r h] at hok
      exact absurd hok (by simp)
    | some row =>
      rw [addReview_of_some rt now T R r row h]
      refine ⟨_, rfl, ?_, ?_, ?_, ?_⟩
      · intro ht
        simp [jsOr, ht]
      · intro n hn hne
        simp [jsOr, hn, JSVal.truthy, hne, Cell.ofJSVal]
      · intro hf
        simp [jsOr, hf, Cell.ofJSVal]
      · intro hcases
        rcases hcases with h1 | h1 | h1 | h1 | h1 <;>
          simp [jsOr, h1, JSVal.truthy, Cell.ofJSVal]
  · intro R' items hget y hy
    unfold getReviews at hget
    cases hf : filterReviews ((R'.drop 1).map toReview) with
    | error e =>
      rw [hf] at hget
      exact absurd hget (by simp)
    | ok kept =>
      rw [hf] at hget
      simp only [Except.ok.injEq] at hget
      subst hget
      have hmem := filterReviews_mem _ kept hf y (List.mem_reverse.1 hy)
      obtain ⟨row, hrow, rfl⟩ := List.mem_map.1 hmem
      refine ⟨row, hrow, rfl, rfl, rfl, ?_, ?_⟩
      · intro he
        simp [toReview, he, Cell.truthy]
      · intro ht
        simp [toReview, ht]
  · intro R' hR'
    exact getReviews_text R' hR'
  · intro R' row hR' hrow htext hrating
    refine ⟨_, getReviews_text R' hR', ?_⟩
    rw [List.mem_reverse, List.mem_map]
    refine ⟨row, List.mem_filter.2 ⟨hrow, htext⟩, ?_⟩
    simp [toReview, hrating, Cell.truthy]

theorem addReview_rating_witness :
    ∃ x : ReviewRow,
      (addReview Runtime.sample 9 [bookingsHeader, ashaConfirmedRow] [reviewsHeader]
        { ashaReview with rating := .num 0 }).2 = [reviewsHeader] ++ [x] ∧
      x.rating = .num 5 :=
  have h := (addReview_rating Runtime.sample 9 [bookingsHeader, ashaConfirmedRow]
    [reviewsHeader] { ashaReview with rating := .num 0 } (by decide)).1
  h.elim fun x hx => ⟨x, hx.1, hx.2.2.2.1 (by decide)⟩

/-! ## Theorems on `getBookings` -/

/-- C12 (counterexample): a data row whose status cell holds the number 0 and
whose note cell holds `false` (both non-empty cells) is returned with status
`"Pending"` and note `""`, not with the stored cells. -/
theorem getBookings_falsy_cells_defaulted :
    zeroStatusRow.status = .num 0 ∧ zeroStatusRow.notes = .bool false ∧
    (getBookings Runtime.sample [bookingsHeader, zeroStatusRow]).map
      (fun b => (b.status, b.admin_notes)) = [(.str "Pending", .str "")] ∧
    (getBookings Runtime.sample [bookingsHeader, zeroStatusRow]).map
      (fun b => (b.status, b.admin_notes)) ≠ [(zeroStatusRow.status, zeroStatusRow.notes)] := by
  decide

/-- C12 (amended): `getBookings` returns one booking per data row, in storage
order; `status` and `payment_status` are the stored cell when it is truthy and
`"Pending"` when it is falsy, `admin_notes` is the stored cell when truthy and
`""` otherwise; name, mobile, location and timestamp are the stored cells.  A
text cell is truthy exactly when it is non-empty; the falsy cells are the
empty cell, the number 0 and `false`. -/
theorem getBookings_rows (rt : Runtime) (T : List BookingRow) :
    getBookings rt T = (T.drop 1).map (fun row =>
      { full_name := row.name, mo_number := row.mobile, location := row.location,
        booked_date := dateKey rt row.date, timestamp := row.timestamp,
        status := if row.status.truthy then row.status else .str "Pending",
        payment_status := if row.payment.truthy then row.payment else .str "Pending",
        admin_notes := if row.notes.truthy then row.notes else .str "" }) ∧
    (getBookings rt T).length = (T.drop 1).length ∧
    (∀ s : String, (Cell.str s).truthy = true ↔ s ≠ "") ∧
    (∀ c : Cell, c.truthy = false ↔ c = .str "" ∨ c = .num 0 ∨ c = .bool false) := by
  refine ⟨rfl, by simp [getBookings], ?_, ?_⟩
  · intro s
    simp [Cell.truthy]
  · intro c
    cases c <;> simp [Cell.truthy]

/-- C13 (counterexample): `createBooking` stores the text `15/06/2025` sent as
`booked_date`, and `getBookings` returns that text as the `booked_date` of the
booking, which is not of the form `YYYY-MM-DD`. -/
theorem getBookings_text_date_as_stored :
    (createBooking Runtime.sample 8 [bookingsHeader] dayFirstRequest).1.success = true ∧
    (getBookings Runtime.sample
        (createBooking Runtime.sample 8 [bookingsHeader] dayFirstRequest).2).map
      (fun b => b.booked_date) = [.str "15/06/2025"] ∧
    isYMD "15/06/2025" = false := by
  decide

/-- C13 (amended): for every content of the `Bookings` sheet, the
`booked_date` of each booking `getBookings` returns is the `yyyy-MM-dd`
rendering of the stored cell when that is a native date, and the stored cell
unchanged otherwise; hence every `booked_date` returned is a string of the
form `YYYY-MM-DD` exactly when every native date renders in that form and
every other date cell is text of that form. -/
theorem getBookings_booked_date (rt : Runtime) (T : List BookingRow) :
    (getBookings rt T).map (fun b => b.booked_date) =
      (T.drop 1).map (fun row =>
        match row.date with
        | .date ms => .str (rt.formatDate ms)
        | c => c) ∧
    ((∀ b ∈ getBookings rt T, b.booked_date.isYMD = true) ↔
      ∀ row ∈ T.drop 1,
        (∃ ms, row.date = .date ms ∧ isYMD (rt.formatDate ms) = true) ∨
        (∃ s, row.date = .str s ∧ isYMD s = true)) := by
  constructor
  · simp only [getBookings, List.map_map]
    apply List.map_congr_left
    intro row _
    cases hd : row.date <;> simp [toBooking, dateKey, hd]
  · constructor
    · intro hall row hrow
      have hb := hall (toBooking rt row) (List.mem_map.2 ⟨row, hrow, rfl⟩)
      cases hd : row.date with
      | str s =>
        refine Or.inr ⟨s, rfl, ?_⟩
        simpa [toBooking, hd, dateKey, Cell.isYMD] using hb
      | date ms =>
        refine Or.inl ⟨ms, rfl, ?_⟩
        simpa [toBooking, hd, dateKey, Cell.isYMD] using hb
      | num n => simp [toBooking, hd, dateKey, Cell.isYMD] at hb
      | bool v => simp [toBooking, hd, dateKey, Cell.isYMD] at hb
    · intro hT b hb
      obtain ⟨row, hrow, rfl⟩ := List.mem_map.1 hb
      rcases hT row hrow with ⟨ms, hd, hfmt⟩ | ⟨t, hd, hfmt⟩
      · simp [toBooking, hd, dateKey, Cell.isYMD, hfmt]
      · simp [toBooking, hd, dateKey, Cell.isYMD, hfmt]

theorem getBookings_booked_date_witness :
    (getBookings Runtime.sample
        [bookingsHeader, { ashaConfirmedRow with date := .date 1749925800000 },
          { ashaConfirmedRow with date := .str "2025-06-16" }]).all
      (fun b => b.booked_date.isYMD) = true :=
  List.all_eq_true.2 ((getBookings_booked_date Runtime.sample
    [bookingsHeader, { ashaConfirmedRow with date := .date 1749925800000 },
      { ashaConfirmedRow with date := .str "2025-06-16" }]).2.2
    (by
      intro row hrow
      have hrow' : row ∈ [{ ashaConfirmedRow with date := .date 1749925800000 },
          { ashaConfirmedRow with date := .str "2025-06-16" }] := hrow
      rcases List.mem_cons.1 hrow' with rfl | hrest
      · exact Or.inl ⟨1749925800000, rfl, by decide⟩
      · rcases List.mem_singleton.1 hrest with rfl
        exact Or.inr ⟨"2025-06-16", rfl, by decide⟩))

/-! ## Theorems on the endpoints -/

theorem getSheet_some_getSheet {α : Type} (header : α) (sheet : Option (List α)) :
    getSheet header (some (getSheet header sheet)) = getSheet header sheet := rfl

theorem doPost_book (rt : Runtime) (now : Int) (data : Request) (ss : Spreadsheet)
    (h : data.action = .str "book") :
    doPost rt now (.parsed data) ss =
      (.reply (createBooking rt now ss.bookingsTable data).1,
        { ss with bookings := some (createBooking rt now ss.bookingsTable data).2 }) := by
  simp [doPost, h]

theorem doPost_update (rt : Runtime) (now : Int) (data : Request) (ss : Spreadsheet)
    (h : data.action = .str "update_booking") :
    doPost rt now (.parsed data) ss =
      (.reply (updateBooking rt ss.bookingsTable data).1,
        { ss with bookings := some (updateBooking rt ss.bookingsTable data).2 }) := by
  simp [doPost, h]

theorem doPost_review_ok (rt : Runtime) (now : Int) (data : Request) (ss : Spreadsheet)
    (h : data.action = .str "add_review")
    (hok : (addReview rt now ss.bookingsTable ss.reviewsTable data).1.success = true) :
    doPost rt now (.parsed data) ss =
      (.reply (addReview rt now ss.bookingsTable ss.reviewsTable data).1,
        { bookings := some ss.bookingsTable,
          reviews := some (addReview rt now ss.bookingsTable ss.reviewsTable data).2 }) := by
  simp [doPost, h, hok]

theorem doPost_review_refused (rt : Runtime) (now : Int) (data : Request) (ss : Spreadsheet)
    (h : data.action = .str "add_review")
    (hno : (addReview rt now ss.bookingsTable ss.reviewsTable data).1.success = false) :
    doPost rt now (.parsed data) ss =
      (.reply (addReview rt now ss.bookingsTable ss.reviewsTable data).1,
        { ss with bookings := some ss.bookingsTable }) := by
  simp [doPost, h, hno]

theorem doPost_other (rt : Runtime) (now : Int) (data : Request) (ss : Spreadsheet)
    (h1 : data.action ≠ .str "book") (h2 : data.action ≠ .str "update_booking")
    (h3 : data.action ≠ .str "add_review") :
    doPost rt now (.parsed data) ss = (.reply ⟨false, "Invalid action"⟩, ss) := by
  simp [doPost, h1, h2, h3]

/-- C14: a GET whose `action` is neither `get_bookings` nor `get_reviews`, and
a POST whose parsed body has an `action` that is none of `book`,
`update_booking` and `add_review`, are answered
`{success: false, message: "Invalid action"}` and leave the spreadsheet as it
was; this includes a request without `action`. -/
theorem invalid_action_rejected (rt : Runtime) (now : Int) (ss : Spreadsheet) :
    (∀ action : JSVal, action ≠ .str "get_bookings" → action ≠ .str "get_reviews" →
      doGet rt action ss = (.ok (.reply ⟨false, "Invalid action"⟩), ss)) ∧
    (∀ data : Request, data.action ≠ .str "book" → data.action ≠ .str "update_booking" →
      data.action ≠ .str "add_review" →
      doPost rt now (.parsed data) ss = (.reply ⟨false, "Invalid action"⟩, ss)) ∧
    doGet rt .undefined ss = (.ok (.reply ⟨false, "Invalid action"⟩), ss) ∧
    (∀ data : Request, data.action = .undefined →
      doPost rt now (.parsed data) ss = (.reply ⟨false, "Invalid action"⟩, ss)) := by
  refine ⟨?_, ?_, ?_, ?_⟩
  · intro action h1 h2
    simp [doGet, h1, h2]
  · intro data h1 h2 h3
    exact doPost_other rt now data ss h1 h2 h3
  · simp [doGet]
  · intro data h
    exact doPost_other rt now data ss (by simp [h]) (by simp [h]) (by simp [h])

/-- Every POST is answered by an object with `success` and `message`: the
handler returns for every body, also one that is not JSON. -/
theorem doPost_replies (rt : Runtime) (now : Int) (body : PostBody) (ss : Spreadsheet) :
    ∃ r : Reply, (doPost rt now body ss).1 = .reply r := by
  cases body with
  | malformed error => exact ⟨_, rfl⟩
  | parsed data =>
    unfold doPost
    simp only
    split
    · exact ⟨_, rfl⟩
    · split
      · exact ⟨_, rfl⟩
      · split
        · split <;> exact ⟨_, rfl⟩
        · exact ⟨_, rfl⟩

/-- C15 (failing input): a POST `add_review` with the number 10 as review text
from an eligible guest is accepted and stored, and the GET `get_reviews` that
follows throws a `TypeError` out of `doGet` instead of returning a JSON
result. -/
theorem doGet_reviews_throws :
    doPost Runtime.sample 9 (.parsed numericReview)
        ⟨some [bookingsHeader, ashaConfirmedRow], some [reviewsHeader]⟩ =
      (.reply ⟨true, "Review Added Successfully!"⟩,
        ⟨some [bookingsHeader, ashaConfirmedRow], some numericReviewSheet⟩) ∧
    (doGet Runtime.sample (.str "get_reviews")
        ⟨some [bookingsHeader, ashaConfirmedRow], some numericReviewSheet⟩).1 =
      .error "TypeError: r.review.trim is not a function" := by
  constructor
  · decide
  · rfl

/-- C16: a `book` or `update_booking` call leaves the `Reviews` sheet as it
was; a refused `add_review` leaves the `Reviews` sheet as it was and the rows
of the `Bookings` sheet unchanged; an accepted `add_review` leaves the rows of
the `Bookings` sheet unchanged and the rows of the `Reviews` sheet followed by
exactly one new row; and after any POST or GET the prior rows of the
`Reviews` sheet are the first rows of the sheet, unchanged. -/
theorem reviews_only_appended (rt : Runtime) (now : Int) (ss : Spreadsheet)
    (data : Request) :
    ((data.action = .str "book" ∨ data.action = .str "update_booking") →
      (doPost rt now (.parsed data) ss).2.reviews = ss.reviews) ∧
    (data.action = .str "add_review" →
      (doPost rt now (.parsed data) ss).1.success = false →
      (doPost rt now (.parsed data) ss).2.reviews = ss.reviews ∧
      (doPost rt now (.parsed data) ss).2.bookingsTable = ss.bookingsTable) ∧
    (data.action = .str "add_review" →
      (doPost rt now (.parsed data) ss).1.success = true →
      (doPost rt now (.parsed data) ss).2.bookingsTable = ss.bookingsTable ∧
      ∃ x : ReviewRow,
        (doPost rt now (.parsed data) ss).2.reviewsTable = ss.reviewsTable ++ [x]) ∧
    (∀ body : PostBody, ss.reviewsTable <+: (doPost rt now body ss).2.reviewsTable) ∧
    (∀ action : JSVal, (doGet rt action ss).2.reviewsTable = ss.reviewsTable ∧
      (doGet rt action ss).2.bookingsTable = ss.bookingsTable) := by
  have hrefused : ∀ d : Request,
      (addReview rt now ss.bookingsTable ss.reviewsTable d).1.success = false →
      (addReview rt now ss.bookingsTable ss.reviewsTable d).2 = ss.reviewsTable := by
    intro d hno
    have h := (addReview_success_iff rt now ss.bookingsTable ss.reviewsTable d).2
      (by simp [hno])
    rw [h]
  have haccepted : ∀ d : Request,
      (addReview rt now ss.bookingsTable ss.reviewsTable d).1.success = true →
      ∃ x : ReviewRow,
        (addReview rt now ss.bookingsTable ss.reviewsTable d).2 = ss.reviewsTable ++ [x] := by
    intro d hok
    cases h : (ss.bookingsTable.drop 1).find? (validates rt (jsTrim d.mobile.toStr)) with
    | none =>
      rw [addReview_of_none rt now _ _ d h] at hok
      exact absurd hok (by simp)
    | some row =>
      rw [addReview_of_some rt now _ _ d row h]
      exact ⟨_, rfl⟩
  refine ⟨?_, ?_, ?_, ?_, ?_⟩
  · rintro (h | h)
    · rw [doPost_book rt now data ss h]
    · rw [doPost_update rt now data ss h]
  · intro h hno
    cases hs : (addReview rt now ss.bookingsTable ss.reviewsTable data).1.success with
    | true =>
      rw [doPost_review_ok rt now data ss h hs] at hno
      simp [Output.success, hs] at hno
    | false =>
      rw [doPost_review_refused rt now data ss h hs]
      exact ⟨rfl, rfl⟩
  · intro h hok
    cases hs : (addReview rt now ss.bookingsTable ss.reviewsTable data).1.success with
    | true =>
      rw [doPost_review_ok rt now data ss h hs]
      exact ⟨rfl, haccepted data hs⟩
    | false =>
      rw [doPost_review_refused rt now data ss h hs] at hok
      simp [Output.success, hs] at hok
  · intro body
    cases body with
    | malformed error => exact List.prefix_refl _
    | parsed d =>
      by_cases h1 : d.action = .str "book"
      · rw [doPost_book rt now d ss h1]
        exact List.prefix_refl _
      · by_cases h2 : d.action = .str "update_booking"
        · rw [doPost_update rt now d ss h2]
          exact List.prefix_refl _
        · by_cases h3 : d.action = .str "add_review"
          · cases hs : (addReview rt now ss.bookingsTable ss.reviewsTable d).1.success with
            | true =>
              rw [doPost_review_ok rt now d ss h3 hs]
              obtain ⟨x, hx⟩ := haccepted d hs
              exact ⟨[x], hx.symm⟩
            | false =>
              rw [doPost_review_refused rt now d ss h3 hs]
              exact List.prefix_refl _
          · rw [doPost_other rt now d ss h1 h2 h3]
  · intro action
    unfold doGet
    split
    · exact ⟨rfl, rfl⟩
    · split
      · exact ⟨rfl, rfl⟩
      · exact ⟨rfl, rfl⟩

/-! ## Theorems on the client snapshot -/

/-- C17: the state `processBookingData` leaves depends only on the list passed
in: from any two prior states the result is the same, it is the result of the
loop run from the empty map and the empty list, and running it a second time
on the same list gives the state of the first run. -/
theorem processBookingData_depends_on_list (rt : Runtime) (prev prev' : ClientState)
    (bs : List BookingJson) :
    processBookingData rt prev bs = processBookingData rt prev' bs ∧
    processBookingData rt prev bs = processLoop rt bs ⟨[], []⟩ ∧
    processBookingData rt (processBookingData rt prev bs).1 bs =
      processBookingData rt prev bs := by
  refine ⟨?_, ?_, ?_⟩
  · unfold processBookingData
    rfl
  · unfold processBookingData
    rfl
  · unfold processBookingData
    rfl

theorem get_cons_self (m : BookingsMap) (key : String) (v : JSVal) :
    BookingsMap.get ((key, v) :: m) key = v := by
  simp [BookingsMap.get, List.lookup]

/-- C18 (counterexample): after `submitBooking` for 2025-06-15 whose response
body cannot be parsed, the booking map has no entry for that date and
`renderCalendar` shows the day as available. -/
theorem submitBooking_unreadable_not_inserted :
    (submitBooking ⟨[], []⟩ "2025-06-15" "Asha" .unreadable).1.bookingsMap.get
      "2025-06-15" = .undefined ∧
    dayState (submitBooking ⟨[], []⟩ "2025-06-15" "Asha" .unreadable).1.bookingsMap
      ⟨2025, 5, 1⟩ 2025 5 15 = .available := by
  decide

/-- C18 (amended): after `submitBooking` for a non-empty date `D` whose
response parses with a truthy `success`, the booking map has a truthy entry
for `D`, so `renderCalendar` gives the day with key `D` the state booked,
without any refetch; when the body cannot be parsed the client state is left
as it was and the notice is the "request sent" alert, not a "Booking failed"
alert. -/
theorem submitBooking_success_inserted (st : ClientState) (D name : String)
    (success message : JSVal) (hD : D ≠ "") (hs : success.truthy = true) :
    ((submitBooking st D name (.json success message)).1.bookingsMap.get D).truthy = true ∧
    (∀ (today : LocalDay) (year month i : Nat), dateStrOf year month i = D →
      dayState (submitBooking st D name (.json success message)).1.bookingsMap
        today year month i = .booked) ∧
    submitBooking st D name .unreadable = (st, .alert requestSentText) ∧
    (∀ text : String,
      (submitBooking st D name .unreadable).2 ≠ .alert ("Booking failed: " ++ text)) := by
  have hmap : (submitBooking st D name (.json success message)).1.bookingsMap =
      (D, jsOr (.str name) (.str "You")) :: st.bookingsMap := by
    simp only [submitBooking]
    rw [if_pos hs]
    simp [optimisticUpdate, JSVal.truthy, hD]
  have hget : ((submitBooking st D name (.json success message)).1.bookingsMap.get D).truthy
      = true := by
    rw [hmap, get_cons_self]
    exact jsOr_truthy _ _ rfl
  refine ⟨hget, ?_, rfl, ?_⟩
  · intro today year month i hkey
    unfold dayState
    rw [hkey, hget]
    simp
  · intro text h
    have hdata := congrArg String.data (Notice.alert.inj h)
    simp [requestSentText, String.data_append] at hdata

theorem submitBooking_success_inserted_witness :
    ((submitBooking ⟨[], []⟩ "2025-06-15" "Asha"
      (.json (.bool true) (.str "Booking Created"))).1.bookingsMap.get "2025-06-15").truthy
      = true :=
  (submitBooking_success_inserted ⟨[], []⟩ "2025-06-15" "Asha" (.bool true)
    (.str "Booking Created") (by decide) rfl).1

/-! ## Mobile numbers in `addReview` -/

/-- C19 (counterexample): the first data row with the request's mobile number
is still pending, a later row with the same number is confirmed and paid, and
`addReview` succeeds. -/
theorem addReview_later_row_counts :
    (pendingThenPaid.drop 1).find? (mobileMatches Runtime.sample "9999999999") =
      some ⟨.str "Asha", .str "9999999999", .str "Delhi", .str "2025-06-14", .date 7,
        .str "Pending", .str "Pending", .str ""⟩ ∧
    (addReview Runtime.sample 9 pendingThenPaid [reviewsHeader] ashaReview).1.success
      = true := by
  decide

/-- C19 (amended): `addReview` decides on the first data row that has the
request's mobile number and is eligible (status `Confirmed` or `Booked`,
payment `Done` or `Paid`): when the rows `pre` before `row` hold no eligible
row with that number (rows of `pre` with the number but not eligible are
passed over) and `row` has the number and is eligible, the review is accepted
under the name of `row`, whatever the later rows hold; and on any sheet where
no row with the number is eligible the review is refused. -/
theorem addReview_first_eligible (rt : Runtime) (now : Int) (h : BookingRow)
    (pre post : List BookingRow) (row : BookingRow) (R : List ReviewRow) (r : Request)
    (hpre : ∀ x ∈ pre, mobileMatches rt (jsTrim r.mobile.toStr) x = true → statusOk x = false)
    (hm : mobileMatches rt (jsTrim r.mobile.toStr) row = true)
    (hs : statusOk row = true) :
    addReview rt now (h :: (pre ++ row :: post)) R r =
      (⟨true, "Review Added Successfully!"⟩,
        R ++ [⟨row.name, Cell.ofJSVal r.review, .date now,
               Cell.ofJSVal (jsOr r.rating (.num 5))⟩]) ∧
    (∀ T : List BookingRow,
      (∀ x ∈ T.drop 1, mobileMatches rt (jsTrim r.mobile.toStr) x = true → statusOk x = false) →
      addReview rt now T R r = (⟨false, notEligibleMessage⟩, R)) := by
  constructor
  · apply addReview_of_some
    rw [List.find?_eq_some]
    refine ⟨by simp [validates, hm, hs], pre, post, by simp, ?_⟩
    intro x hx
    cases hmx : mobileMatches rt (jsTrim r.mobile.toStr) x with
    | false => simp [validates, hmx]
    | true => simp [validates, hmx, hpre x hx hmx]
  · intro T hT
    apply addReview_of_none
    rw [List.find?_eq_none]
    intro x hx
    cases hmx : mobileMatches rt (jsTrim r.mobile.toStr) x with
    | false => simp [validates, hmx]
    | true => simp [validates, hmx, hT x hx hmx]

theorem addReview_first_eligible_witness :
    addReview Runtime.sample 9 pendingThenPaid [reviewsHeader] ashaReview =
      (⟨true, "Review Added Successfully!"⟩,
        [reviewsHeader] ++ [⟨.str "Asha", .str "Great stay", .date 9, .num 5⟩]) :=
  (addReview_first_eligible Runtime.sample 9 bookingsHeader
    [⟨.str "Asha", .str "9999999999", .str "Delhi", .str "2025-06-14", .date 7,
      .str "Pending", .str "Pending", .str ""⟩] [] ashaConfirmedRow [reviewsHeader]
    ashaReview (by decide) (by decide) (by decide)).1

/-- C20 (failing input): the booking is confirmed and paid and its mobile cell
reads as the quote character followed by 9999999999; `addReview` with mobile
9999999999 is refused, since the cell is only trimmed before the comparison. -/
theorem addReview_quoted_mobile_refused :
    quotedMobileRow.mobile = .str "'9999999999" ∧ statusOk quotedMobileRow = true ∧
    addReview Runtime.sample 9 [bookingsHeader, quotedMobileRow] [reviewsHeader]
        ashaReview = (⟨false, notEligibleMessage⟩, [reviewsHeader]) := by
  decide

/-! ## Client verification against `addReview` -/

/-- C21 (failing input): for a confirmed and paid booking whose mobile cell
reads as quote and digits, step 1 of the review dialog finds the booking for
the input 9999999999 and displays its name, while `addReview` with that mobile
is refused; and when a later booking of another guest holds the digits alone,
both succeed but the client displays the first guest's name and `addReview`
stores the second guest's name. -/
theorem client_verifies_server_refuses :
    clientDisplayedName isoString "9999999999"
        (getBookings Runtime.sample [bookingsHeader, quotedMobileRow]) =
      some (.str "Asha") ∧
    addReview Runtime.sample 9 [bookingsHeader, quotedMobileRow] [reviewsHeader]
        ashaReview = (⟨false, notEligibleMessage⟩, [reviewsHeader]) ∧
    clientDisplayedName isoString "9999999999"
        (getBookings Runtime.sample quotedThenPlain) = some (.str "Asha") ∧
    addReview Runtime.sample 9 quotedThenPlain [reviewsHeader] ashaReview =
      (⟨true, "Review Added Successfully!"⟩,
        [reviewsHeader, ⟨.str "Bina", .str "Great stay", .date 9, .num 5⟩]) := by
  decide

theorem find?_congr_mem {α : Type} (p q : α → Bool) (l : List α)
    (h : ∀ x ∈ l, p x = q x) : l.find? p = l.find? q := by
  induction l with
  | nil => rfl
  | cons a l ih =>
    have ha := h a (List.mem_cons_self a l)
    have hl := ih fun x hx => h x (List.mem_cons_of_mem a hx)
    simp [List.find?, ha, hl]

theorem jsval_str_beq (a b : String) : (JSVal.str a == JSVal.str b) = (a == b) := by
  by_cases h : a = b <;> simp [h]

theorem cell_str_beq (a b : String) : (Cell.str a == Cell.str b) = (a == b) := by
  by_cases h : a = b <;> simp [h]

theorem clientQualifies_plain (rt : Runtime) (dateToJSON : Int → String) (m : String)
    (row : BookingRow) (hrow : plainTextRow row) :
    clientQualifies dateToJSON m (toBooking rt row) = validates rt m row := by
  obtain ⟨⟨s, hs, hq⟩, ⟨st, hst⟩, ⟨pay, hpay⟩⟩ := hrow
  have hmob : clientMobile ((toBooking rt row).mo_number.toJson dateToJSON) =
      jsTrim (row.mobile.toStr rt) := by
    simp only [toBooking, hs, Cell.toJson, clientMobile, Cell.toStr]
    by_cases he : s = ""
    · subst he
      simp [jsOr, JSVal.truthy, JSVal.toStr, hq]
    · simp [jsOr, JSVal.truthy, JSVal.toStr, he, hq]
  have hstatus : (toBooking rt row).status.toJson dateToJSON = .str
      (if st = "" then "Pending" else st) := by
    by_cases he : st = "" <;> simp [toBooking, hst, cellOr, Cell.truthy, Cell.toJson, he]
  have hpayment : (toBooking rt row).payment_status.toJson dateToJSON = .str
      (if pay = "" then "Pending" else pay) := by
    by_cases he : pay = "" <;> simp [toBooking, hpay, cellOr, Cell.truthy, Cell.toJson, he]
  unfold clientQualifies validates mobileMatches statusOk
  rw [hmob, hstatus, hpayment, hst, hpay]
  simp only [jsval_str_beq, cell_str_beq]
  by_cases h1 : st = "" <;> by_cases h2 : pay = "" <;>
    simp [h1, h2, Bool.or_comm]

/-- On a `Bookings` sheet whose mobile cells are text without a quote
character and whose status and payment cells are text, step 1 of the review
dialog and `addReview` agree for a trimmed input `m`: the client finds a
booking exactly when `addReview` succeeds, and then the name it displays is the
name `addReview` stores. -/
theorem client_server_agree_plain (rt : Runtime) (dateToJSON : Int → String) (now : Int)
    (T : List BookingRow) (R : List ReviewRow) (r : Request) (m : String)
    (hm : jsTrim m = m) (hr : r.mobile = .str m)
    (hT : ∀ row ∈ T.drop 1, plainTextRow row) :
    ((clientVerify dateToJSON m (getBookings rt T)).isSome = true ↔
      (addReview rt now T R r).1.success = true) ∧
    (∀ x : ReviewRow,
      addReview rt now T R r = (⟨true, "Review Added Successfully!"⟩, R ++ [x]) →
      clientDisplayedName dateToJSON m (getBookings rt T) =
        some (x.name.toJson dateToJSON)) := by
  have htarget : jsTrim r.mobile.toStr = m := by
    rw [hr]
    exact hm
  have hfind : clientVerify dateToJSON m (getBookings rt T) =
      ((T.drop 1).find? (validates rt m)).map (toBooking rt) := by
    unfold clientVerify getBookings
    rw [hm, List.find?_map]
    congr 1
    apply find?_congr_mem
    intro row hrow
    exact clientQualifies_plain rt dateToJSON m row (hT row hrow)
  cases hf : (T.drop 1).find? (validates rt m) with
  | none =>
    have hnone := addReview_of_none rt now T R r (by rw [htarget]; exact hf)
    rw [hfind, hf, hnone]
    refine ⟨by simp, ?_⟩
    intro x hx
    exact absurd (congrArg (fun p => p.1.success) hx) (by simp)
  | some row =>
    have hsome := addReview_of_some rt now T R r row (by rw [htarget]; exact hf)
    rw [hfind, hf, hsome]
    refine ⟨by simp, ?_⟩
    intro x hx
    have hx2 := congrArg Prod.snd hx
    simp only [List.append_cancel_left_eq, List.cons.injEq, and_true] at hx2
    unfold clientDisplayedName
    rw [hfind, hf, ← hx2]
    rfl

theorem client_server_agree_plain_witness :
    (clientVerify isoString "9999999999"
      (getBookings Runtime.sample [bookingsHeader, ashaConfirmedRow])).isSome = true ↔
    (addReview Runtime.sample 9 [bookingsHeader, ashaConfirmedRow] [reviewsHeader]
      ashaReview).1.success = true :=
  (client_server_agree_plain Runtime.sample isoString 9 [bookingsHeader, ashaConfirmedRow]
    [reviewsHeader] ashaReview "9999999999" (by decide) rfl
    (by
      intro row hrow
      have hrow' : row ∈ [ashaConfirmedRow] := hrow
      rcases List.mem_singleton.1 hrow' with rfl
      exact ⟨⟨"9999999999", rfl, by decide⟩, ⟨"Confirmed", rfl⟩, ⟨"Paid", rfl⟩⟩)).1

end DiamondPalace
